import Mathlib

/-! # share-images: key allocation and the upload / retrieval handlers

A shallow embedding of `internal/web/web.go` and `internal/db/db.go`.

* The pseudo-random generator is a list of pending results of `rand.Intn(123)`.
* The MongoDB collection is a list of `imageData` documents plus a schedule of
  injected driver faults, one entry per round trip.
* The process-wide variable `db.RecordNotFound` and the process log are fields
  of the `World` that every operation threads through. A handler that runs alone
  is one function of the `World`; `ServeImage` is also given in the two steps
  between which other requests run when net/http serves them at the same time.
* `http.ResponseWriter` is a record of the committed status, of the bytes handed
  to `Write`, and of the results the transport will report for coming writes.
-/

set_option autoImplicit false
set_option linter.dupNamespace false

namespace ShareImages

/-! ## Basic data -/

/-- Byte slices. -/
abbrev Bytes := List UInt8

/-- The bytes of a Go string holding the text `s` (UTF-8). -/
def bytesOf (s : String) : Bytes := s.data.flatMap String.utf8EncodeChar

/-- Go error values that occur in the two packages. -/
inductive Error where
  /-- The sentinel `mongo.ErrNoDocuments`. -/
  | ErrNoDocuments
  /-- The sentinel `http.ErrMissingFile`. -/
  | ErrMissingFile
  /-- An error value produced outside the program: driver, codec, transport, file system. -/
  | fault (msg : String)
  /-- The value of `fmt.Errorf(msg)` for a format without verbs. -/
  | errorf (msg : String)
  /-- The value of `fmt.Errorf(msg + ": %w", err)`. -/
  | wrapf (msg : String) (err : Error)
deriving DecidableEq, Repr

/-- The method `err.Error()`. -/
def Error.Error : Error → String
  | .ErrNoDocuments => "mongo: no documents in result"
  | .ErrMissingFile => "http: no such file"
  | .fault msg => msg
  | .errorf msg => msg
  | .wrapf msg err => msg ++ ": " ++ err.Error

/-- The function `errors.Is(err, target)`: equality somewhere along the `%w` chain. -/
def errorsIs : Error → Error → Bool
  | .wrapf msg err, target => (Error.wrapf msg err == target) || errorsIs err target
  | err, target => err == target

/-- The collection document type `imageData` of package db. -/
structure imageData where
  Filename : String
  Key : String
  File : Bytes
deriving DecidableEq, Repr

/-- A fault injected into one database operation. -/
inductive Fault where
  /-- The round trip fails: `FindOne(..).Decode` or `InsertOne` returns this error. -/
  | driver (msg : String)
  /-- The round trip succeeds but `bson.Marshal` of the decoded document fails. -/
  | marshal (msg : String)
deriving DecidableEq, Repr

/-- Everything outside a single handler invocation. -/
structure World where
  /-- The documents of the collection, in insertion order. -/
  docs : List imageData
  /-- The package-level variable `db.RecordNotFound`. -/
  RecordNotFound : Bool
  /-- Faults of the coming database operations; an exhausted schedule means no fault. -/
  faults : List (Option Fault)
  /-- The coming results of `rand.Intn(endLoA + 1)`. -/
  draws : List Nat
  /-- The format strings of the `log.Printf` calls made so far. -/
  log : List String
deriving DecidableEq, Repr

/-- A call `log.Printf(format, ...)`, recorded by its format string. -/
def logPrintf (format : String) (s : World) : World :=
  { s with log := s.log ++ [format] }

/-- Take the fault scheduled for the next database operation. -/
def popFault (s : World) : Option Fault × World :=
  match s.faults with
  | [] => (none, s)
  | f :: fs => (f, { s with faults := fs })

/-! ## Key generator (web.go, generateKey) -/

def keyLen : Nat := 6
def startInt : Nat := 48
def endInt : Nat := 57
def startUpA : Nat := 65
def endUpA : Nat := 90
def startLoA : Nat := 97
def endLoA : Nat := 122

/-- The condition of the inner `for` of `generateKey`: `c` is not a digit or letter code. -/
def rejected (c : Nat) : Bool :=
  c < startInt || c > endInt && c < startUpA || c > endUpA && c < startLoA || c > endLoA

/-- The inner `for` of `generateKey`: while `c` is rejected, `c = rand.Intn(endLoA + 1)`.
Returns the accepted `c` and the draws left, or `none` when the draws run out first. -/
def sampleLoop (c : Nat) : List Nat → Option (Nat × List Nat)
  | [] => if rejected c then none else some (c, [])
  | d :: ds => if rejected c then sampleLoop d ds else some (c, d :: ds)

/-- The outer `for lim := keyLen; lim > 0; lim--` of `generateKey`; every round starts
from `var c int` (zero) and appends `string(byte(c))`. -/
def generateLoop : Nat → String → List Nat → Option (String × List Nat)
  | 0, res, draws => some (res, draws)
  | lim + 1, res, draws =>
    match sampleLoop 0 draws with
    | none => none
    | some (c, rest) => generateLoop lim (res ++ String.singleton (Char.ofNat (c % 256))) rest

/-- The function `generateKey`, run on the pending draws. -/
def generateKey (draws : List Nat) : Option (String × List Nat) :=
  generateLoop keyLen "" draws

/-! ## Storage gateway (db.go) -/

/-- The call `p.db.FindOne(ctx, bson.D{{"key", key}}).Decode(&resImage)`. -/
def FindOne (f : Option Fault) (docs : List imageData) (key : String) : Except Error imageData :=
  match f with
  | some (.driver msg) => .error (.fault msg)
  | _ =>
    match docs.find? (fun d => d.Key == key) with
    | some d => .ok d
    | none => .error .ErrNoDocuments

/-- The largest BSON document a MongoDB server accepts (`maxBsonObjectSize`, 16 MiB). -/
def maxBsonObjectSize : Nat := 16 * 1024 * 1024

/-- The length of the BSON document `InsertOne` sends for an `imageData`: the length
word, the `_id` the driver adds (an ObjectID), the strings `filename` and `key`, the
binary `file`, and the end byte. -/
def bsonSize (d : imageData) : Nat :=
  4 + (1 + 4 + 12) + (1 + 9 + 4 + (bytesOf d.Filename).length + 1) +
    (1 + 4 + 4 + (bytesOf d.Key).length + 1) + (1 + 5 + 4 + 1 + d.File.length) + 1

/-- The method `DB.Set`; `InsertOne` refuses a document longer than the server accepts. -/
def DB.Set (filename key : String) (file : Bytes) (s : World) : Option Error × World :=
  match popFault s with
  | (some (.driver msg), s1) =>
    (some (.fault msg), logPrintf "The image %s has not been added to the database: %v" s1)
  | (_, s1) =>
    if bsonSize { Filename := filename, Key := key, File := file } > maxBsonObjectSize then
      (some (.fault "an inserted document is too large"),
        logPrintf "The image %s has not been added to the database: %v" s1)
    else
      (none, logPrintf "A new document has been added to the database: %v"
        { s1 with docs := s1.docs ++ [{ Filename := filename, Key := key, File := file }] })

/-- The method `DB.IsExist`. -/
def DB.IsExist (key : String) (s : World) : (Bool × Option Error) × World :=
  let (f, s1) := popFault s
  match FindOne f s1.docs key with
  | .error err =>
    if errorsIs err .ErrNoDocuments then
      ((false, none), logPrintf "The file was not found in the database: %v" s1)
    else
      ((false, some err), logPrintf "The file was not extracted from the database: %v" s1)
  | .ok _ => ((true, none), s1)

/-- The method `DB.Get`. -/
def DB.Get (key : String) (s : World) : (Bytes × Option Error) × World :=
  let (f, s1) := popFault s
  let s2 := { s1 with RecordNotFound := false }
  match FindOne f s1.docs key with
  | .error err =>
    if errorsIs err .ErrNoDocuments then
      (([], some err),
        logPrintf "The file was not found in the database: %v" { s2 with RecordNotFound := true })
    else
      (([], some (.wrapf "The file was not extracted from the database" err)),
        logPrintf "The file was not extracted from the database: %v" s2)
  | .ok resImage =>
    match f with
    | some (.marshal msg) => (([], some (.fault msg)), logPrintf "BSON document not received: %v" s2)
    | _ => ((resImage.File, none), s2)

/-! ## net/http, text/template and path, as far as the handlers use them -/

/-- The state of an `http.ResponseWriter`. -/
structure ResponseWriter where
  /-- The status line sent: set by the first `WriteHeader`, or to 200 by a first `Write`. -/
  status : Option Nat
  /-- All bytes handed to `Write` so far, in order. -/
  body : Bytes
  /-- The `(n, err)` results the transport reports for the coming `Write` calls; when the
  script is exhausted a `Write` reports the full length and no error. -/
  script : List (Int × Option Error)
deriving DecidableEq, Repr

/-- The result `(n, err)` the next `w.Write(data)` will report. -/
def ResponseWriter.nextWrite (w : ResponseWriter) (data : Bytes) : Int × Option Error :=
  match w.script with
  | [] => ((data.length : Int), none)
  | res :: _ => res

/-- The method `w.WriteHeader(code)`: only the first status counts. -/
def ResponseWriter.WriteHeader (w : ResponseWriter) (code : Nat) : ResponseWriter :=
  match w.status with
  | none => { w with status := some code }
  | some _ => w

/-- The method `w.Write(data)`. -/
def ResponseWriter.Write (w : ResponseWriter) (data : Bytes) :
    (Int × Option Error) × ResponseWriter :=
  (w.nextWrite data,
    { status := some (w.status.getD 200), body := w.body ++ data, script := w.script.tail })

/-- The function `http.Error(w, error, code)`: the status, then the message and a newline.
Response header fields are not modelled. -/
def httpError (w : ResponseWriter) (error : String) (code : Nat) : ResponseWriter :=
  ((w.WriteHeader code).Write (bytesOf (error ++ "\n"))).2

def StatusBadRequest : Nat := 400
def StatusNotFound : Nat := 404
def StatusMethodNotAllowed : Nat := 405
def StatusInternalServerError : Nat := 500
def StatusFound : Nat := 302
def MethodPost : String := "POST"

/-- The function `http.StatusText`, on the codes this program passes or sends. -/
def StatusText (code : Nat) : String :=
  if code = 200 then "OK"
  else if code = 302 then "Found"
  else if code = 400 then "Bad Request"
  else if code = 404 then "Not Found"
  else if code = 405 then "Method Not Allowed"
  else if code = 500 then "Internal Server Error"
  else ""

/-- The struct `errorPage`. -/
structure errorPage where
  Number : Nat
  Text : String
deriving DecidableEq, Repr

/-- The data a template is executed with: an `*errorPage` or the link string. -/
inductive TemplateData where
  | page (p : errorPage)
  | link (userLink : String)
deriving DecidableEq, Repr

/-- A parsed `*template.Template`: the output it produces for given data, and the error
that stopped the execution, if any. The template files are not part of the program. -/
structure Template where
  render : TemplateData → Bytes × Option Error

/-- The method `t.Execute(w, data)`: output that was produced goes to `w` in one `Write`,
and nothing is written when the execution produced none; the result is the execution
error, or else the error of the write. -/
def Template.Execute (t : Template) (w : ResponseWriter) (data : TemplateData) :
    Option Error × ResponseWriter :=
  let (out, err) := t.render data
  if out = [] then (err, w)
  else
    let (res, w1) := w.Write out
    match err with
    | some e => (some e, w1)
    | none => (res.2, w1)

/-- Drop trailing slashes (helper of `path.Base`). -/
def stripTrailingSlashes (p : List Char) : List Char :=
  (p.reverse.dropWhile (fun c => c == '/')).reverse

/-- The part of a path after its last slash (helper of `path.Base`). -/
def afterLastSlash (p : List Char) : List Char :=
  (p.reverse.takeWhile (fun c => c != '/')).reverse

/-- The function `path.Base`. -/
def pathBase (p : String) : String :=
  if p = "" then "."
  else
    let q := afterLastSlash (stripTrailingSlashes p.data)
    if q = [] then "/" else String.mk q

/-- The slash-separated elements of a path, empty ones included. -/
def pathElements : List Char → List (List Char)
  | [] => [[]]
  | c :: cs =>
    if c = '/' then [] :: pathElements cs
    else
      match pathElements cs with
      | [] => [[c]]
      | e :: es => (c :: e) :: es

/-- One element of `path.Clean`, applied to the reversed list of elements kept so far. -/
def cleanStep (rooted : Bool) (kept : List (List Char)) (e : List Char) : List (List Char) :=
  if e = [] ∨ e = ['.'] then kept
  else if e = ['.', '.'] then
    match kept with
    | [] => if rooted then [] else [e]
    | k :: ks => if k = ['.', '.'] then e :: k :: ks else ks
  else e :: kept

/-- The function `path.Clean`: single slashes, no `.` element, inner `..` elements removed
with the element before them, `..` dropped at the root, and `.` for an empty result. -/
def pathClean (p : String) : String :=
  let rooted := p.data.head? = some '/'
  let kept := ((pathElements p.data).foldl (cleanStep rooted) []).reverse
  let out := (if rooted then ['/'] else []) ++ List.intercalate ['/'] kept
  if out = [] then "." else String.mk out

/-- The function `path.Join` on two elements. -/
def pathJoin (a b : String) : String :=
  if a = "" ∧ b = "" then ""
  else if a = "" then pathClean b
  else if b = "" then pathClean a
  else pathClean (a ++ "/" ++ b)

/-- The method `Header.Get`: the first value stored under the key, or the empty string. -/
def HeaderGet (h : List (String × List String)) (key : String) : String :=
  match h.lookup key with
  | some (v :: _) => v
  | _ => ""

/-! ## Requests and multipart bodies -/

/-- One part of a `multipart/form-data` body. -/
structure Part where
  /-- The form field name declared by the part. -/
  name : String
  /-- The file name declared by the part; the empty string for a plain value. -/
  filename : String
  /-- The header lines of the part as sent, each with its line end. -/
  header : Bytes
  /-- The content of the part. -/
  content : Bytes
  /-- The error that reading the stored content back meets, if any. -/
  readFault : Option String
deriving DecidableEq, Repr

/-- A request body: bytes the multipart reader cannot parse (with the error it reports),
or a `multipart/form-data` message, announced with its boundary in the `Content-Type`
header, that the reader parses into `parts` when nothing limits the body. `epilogue` is
`none` when the body ends right after the closing delimiter, and otherwise holds the
bytes that follow the line end of that delimiter. -/
inductive Body where
  | malformed (raw : Bytes) (err : String)
  | formData (boundary : String) (parts : List Part) (epilogue : Option Bytes)
deriving DecidableEq, Repr

def crlf : Bytes := [13, 10]
def dashes : Bytes := [45, 45]

/-- The bytes of one part on the wire: delimiter line, header lines, blank line, content
and the line end in front of the next delimiter. -/
def Part.wire (boundary : String) (p : Part) : Bytes :=
  dashes ++ bytesOf boundary ++ crlf ++ p.header ++ crlf ++ p.content ++ crlf

/-- The bytes of a body that the multipart reader has to read: for a well-formed message
the parts, the closing delimiter and, unless the body ends there, its line end. The
reader stops there and leaves an epilogue unread. -/
def Body.message : Body → Bytes
  | .malformed raw _ => raw
  | .formData boundary parts epilogue =>
    parts.flatMap (Part.wire boundary) ++ (dashes ++ bytesOf boundary ++ dashes) ++
      (match epilogue with
       | none => []
       | some _ => crlf)

/-- The bytes of a request body on the wire. -/
def Body.wire : Body → Bytes
  | .malformed raw _ => raw
  | .formData boundary parts epilogue =>
    (Body.formData boundary parts epilogue).message ++ epilogue.getD []

/-- The header lines `multipart.Writer.CreateFormFile` writes for a file part. -/
def fileHeaderLines (name filename : String) : Bytes :=
  bytesOf "Content-Disposition: form-data; name=" ++ [34] ++ bytesOf name ++ [34] ++
    bytesOf "; filename=" ++ [34] ++ bytesOf filename ++ [34] ++ crlf ++
    bytesOf "Content-Type: application/octet-stream" ++ crlf

/-- The struct `multipart.FileHeader`, without the MIME header map. -/
structure FileHeader where
  Filename : String
  Size : Nat
deriving DecidableEq, Repr

/-- The fields of `http.Request` the handlers read. -/
structure Request where
  Method : String
  /-- The value of `r.URL.String()`. -/
  URL : String
  Header : List (String × List String)
  Body : Body
  /-- The byte limit put on `Body` by `http.MaxBytesReader`, if any. -/
  limit : Option Nat
  /-- The field `r.MultipartForm`, set by `ParseMultipartForm`. -/
  MultipartForm : Option (List Part)
deriving DecidableEq, Repr

/-- The assignment `r.Body = http.MaxBytesReader(w, r.Body, n)`. -/
def MaxBytesReader (r : Request) (n : Nat) : Request :=
  { r with limit := some (match r.limit with
                          | none => n
                          | some m => min m n) }

def defaultMaxMemory : Nat := 32 <<< 20

/-- The raw query of a URL string: what follows its first question mark. -/
def rawQuery (url : String) : List Char :=
  (url.data.dropWhile (fun c => c != '?')).drop 1

/-- The pieces of a query between its `&` separators, empty ones included. -/
def queryPairs : List Char → List (List Char)
  | [] => [[]]
  | c :: cs =>
    if c = '&' then [] :: queryPairs cs
    else
      match queryPairs cs with
      | [] => [[c]]
      | e :: es => (c :: e) :: es

def isHexDigit (c : Char) : Bool :=
  ('0' ≤ c && c ≤ '9') || ('a' ≤ c && c ≤ 'f') || ('A' ≤ c && c ≤ 'F')

/-- The error of `url.QueryUnescape`: a percent sign that is not followed by two
hexadecimal digits. -/
def escapeError : List Char → Option Error
  | [] => none
  | '%' :: a :: b :: cs =>
    if isHexDigit a && isHexDigit b then escapeError cs
    else some (.fault ("invalid URL escape " ++ String.mk [Char.ofNat 34, '%', a, b, Char.ofNat 34]))
  | '%' :: rest =>
    some (.fault ("invalid URL escape " ++
      String.mk (Char.ofNat 34 :: '%' :: rest ++ [Char.ofNat 34])))
  | _ :: cs => escapeError cs

/-- One round of the loop of `url.ParseQuery`, on the piece `pair` with the error so far. -/
def queryPairError (err : Option Error) (pair : List Char) : Option Error :=
  if pair.contains ';' then some (.errorf "invalid semicolon separator in query")
  else if pair = [] then err
  else
    match escapeError (pair.takeWhile (fun c => c != '=')) with
    | some e => if err = none then some e else err
    | none =>
      match escapeError ((pair.dropWhile (fun c => c != '=')).drop 1) with
      | some e => if err = none then some e else err
      | none => err

/-- The error of `url.ParseQuery`, if any. -/
def ParseQuery (query : List Char) : Option Error :=
  (queryPairs query).foldl queryPairError none

/-- The error of `r.ParseForm()` for a request with a multipart body: the body is left to
the multipart reader, the query of the URL is parsed. -/
def ParseForm (r : Request) : Option Error := ParseQuery (rawQuery r.URL)

/-- The method `r.ParseMultipartForm(maxMemory)`. The error of `ParseForm` is kept for the
end; a form that is already there is left alone; the multipart reader has to read the
message up to the line of its closing delimiter, which a limited body allows only when
these bytes are no more than the limit; then the form is stored and the error of
`ParseForm` returned. `maxMemory` only decides between memory and disk, and the limits of
the reader on the number of parts and header lines are not modelled. -/
def ParseMultipartForm (r : Request) (_maxMemory : Nat) : Option Error × Request :=
  let parseFormErr := ParseForm r
  match r.MultipartForm with
  | some _ => (none, r)
  | none =>
    match r.Body with
    | .malformed _ err => (some (.fault err), r)
    | .formData boundary parts epilogue =>
      match r.limit with
      | none => (parseFormErr, { r with MultipartForm := some parts })
      | some n =>
        if (Body.formData boundary parts epilogue).message.length > n then
          (some (.fault "multipart: NextPart: http: request body too large"), r)
        else (parseFormErr, { r with MultipartForm := some parts })

/-- The first file stored under a form key; the name in its header is the last element
of the declared file name (`filepath.Base`, with the slash as separator). -/
def firstFile (form : List Part) (key : String) : Except Error (Part × FileHeader) :=
  match form.find? (fun p => p.name == key && p.filename != "") with
  | some p => .ok (p, { Filename := pathBase p.filename, Size := p.content.length })
  | none => .error .ErrMissingFile

/-- The method `r.FormFile(key)`. -/
def FormFile (r : Request) (key : String) : Except Error (Part × FileHeader) :=
  match r.MultipartForm with
  | some form => firstFile form key
  | none =>
    match ParseMultipartForm r defaultMaxMemory with
    | (some err, _) => .error err
    | (none, r1) => firstFile (r1.MultipartForm.getD []) key

/-- The call `io.Copy(fileBuf, file)` into an empty buffer: the buffer and the error. -/
def ioCopy (file : Part) : Bytes × Option Error :=
  match file.readFault with
  | some msg => ([], some (.fault msg))
  | none => (file.content, none)

/-! ## The handlers (web.go) -/

def maxUploadSize : Nat := 32 <<< 20
def keyForm : String := "image"

/-- The struct `Web`; its `db` field is the collection held by the `World`. -/
structure Web where
  form : Bytes
  imgDir : String
  templLink : Template
  templError : Template

/-- The method `Web.writeError`. -/
def writeError (h : Web) (w : ResponseWriter) (_errText : String) (errStatus : Nat) :
    Option Error × ResponseWriter :=
  let w1 := w.WriteHeader errStatus
  let errPage : errorPage := { Number := errStatus, Text := StatusText errStatus }
  match h.templError.Execute w1 (.page errPage) with
  | (some err, w2) => (some err, w2)
  | (none, w2) => (none, w2)

/-- The method `Web.write`. -/
def write (h : Web) (w : ResponseWriter) (data : Bytes) (errText : String) (errStatus : Nat)
    (s : World) : Option Error × ResponseWriter × World :=
  match w.Write data with
  | ((_, some err), w1) =>
    match writeError h w1 errText errStatus with
    | (some templErr, w2) =>
      (some templErr,
        httpError w2 ("The template was not recorded: " ++ err.Error) StatusInternalServerError,
        logPrintf "The template was not recorded" s)
    | (none, w2) => (some err, w2, logPrintf "%s: %v" s)
  | ((bw, none), w1) =>
    if bw ≠ (data.length : Int) then
      (some (.errorf "Partial write to the client"), w1,
        logPrintf "%d byte expected, was received %d" s)
    else (none, w1, s)

/-- The method `Web.ServeImage` up to the return of `h.db.Get` (web.go:88-95). -/
def ServeImageGet (r : Request) (s : World) : (Bytes × Option Error) × World :=
  let key := pathBase r.URL
  let s1 := logPrintf "A key for database search has been retrieved from the path: %s" s
  DB.Get key s1

/-- The method `Web.ServeImage` from its test of `err` on (web.go:97-119), with the
result `Get` returned to it, in the state `s` the process is in at that moment: the
process-wide `db.RecordNotFound` is read from `s`. -/
def ServeImageRespond (h : Web) (w : ResponseWriter) (res : Bytes × Option Error)
    (s : World) : ResponseWriter × World :=
  match res with
  | (_, some err) =>
    if s.RecordNotFound then
      match writeError h w (StatusText StatusNotFound) StatusNotFound with
      | (some _, w1) =>
        (httpError w1 ("The template was not recorded: " ++ err.Error) StatusInternalServerError,
          logPrintf "The template was not recorded" s)
      | (none, w1) => (w1, s)
    else
      (httpError w ("cannot get file: " ++ err.Error) StatusInternalServerError,
        logPrintf "cannot get file: %v" s)
  | (file, none) =>
    let s3 := logPrintf "A file was retrieved from the database: %s" s
    match write h w file "cannot write file" StatusInternalServerError s3 with
    | (some _, w1, s4) => (w1, logPrintf "The file was not written to the client socket" s4)
    | (none, w1, s4) =>
      (w1, logPrintf "The contents of the %q have been sent to the client" s4)

/-- The method `Web.ServeImage` for a request that runs alone: nothing else touches the
state of the process between the return of its `Get` and the rest of the handler. -/
def ServeImage (h : Web) (w : ResponseWriter) (r : Request) (s : World) :
    ResponseWriter × World :=
  let (res, s2) := ServeImageGet r s
  ServeImageRespond h w res s2

/-- Two retrieval requests `A` and `B` that net/http serves at the same time, with their
steps in this order: the `Get` of `A` returns, the `Get` of `B` runs, `A` goes on from its
test of `err`, then `B` does. The result holds the two responses and the final state. -/
def ServeImageInterleaved (h : Web) (wA : ResponseWriter) (rA : Request)
    (wB : ResponseWriter) (rB : Request) (s : World) :
    (ResponseWriter × ResponseWriter) × World :=
  let (resA, s1) := ServeImageGet rA s
  let (resB, s2) := ServeImageGet rB s1
  let (wA1, s3) := ServeImageRespond h wA resA s2
  let (wB1, s4) := ServeImageRespond h wB resB s3
  ((wA1, wB1), s4)

/-- The first two statements of the loop body of `createKey`: generate a candidate and ask
the store whether it exists. `none` when the draws run out inside `generateKey`. -/
def nextCandidate (s : World) : Option (String × (Bool × Option Error) × World) :=
  match generateKey s.draws with
  | none => none
  | some (key, rest) =>
    let (res, s1) := DB.IsExist key { s with draws := rest }
    some (key, res, s1)

/-- The function `createKey`; `fuel` bounds the number of rounds of its `for` loop, and
`none` means that the loop is still running when the fuel or the draws are used up. -/
def createKey : Nat → String → World → Option ((String × Option Error) × World)
  | 0, _, _ => none
  | fuel + 1, str, s =>
    match nextCandidate s with
    | none => none
    | some (_, (_, some err), s1) => some (("", some err), s1)
    | some (key, (isFound, none), s1) =>
      if isFound == false then some ((key, none), s1) else createKey fuel str s1

/-- The link for the user, as `Upload` forms it from the request headers and the key. -/
def userLink (r : Request) (key : String) : String :=
  let schemeDefault := "http://"
  let scheme :=
    if HeaderGet r.Header "X-Forwarded-Proto" != "" then
      HeaderGet r.Header "X-Forwarded-Proto" ++ "://"
    else schemeDefault
  let addr := HeaderGet r.Header "X-Forwarded-Host"
  let dir := "/images"
  let fileName := key
  scheme ++ addr ++ pathJoin dir fileName

/-- The method `Web.Upload`; `fuel` is passed to `createKey`. -/
def Upload (fuel : Nat) (h : Web) (w : ResponseWriter) (r : Request) (s : World) :
    Option (ResponseWriter × World) :=
  if r.Method != MethodPost then
    some (httpError w "Method not allowed" StatusMethodNotAllowed,
      logPrintf "Method %v not allowed" s)
  else
    let s1 := logPrintf "Received a POST request from a client" s
    match ParseMultipartForm (MaxBytesReader r maxUploadSize) maxUploadSize with
    | (some err, _) =>
      some (httpError w ("cannot parse form: " ++ err.Error) StatusBadRequest,
        logPrintf "cannot parse form: %v" s1)
    | (none, r1) =>
      let s2 := logPrintf "Processed no more than %d bytes of the request body" s1
      match FormFile r1 keyForm with
      | .error err =>
        some (httpError w ("cannot get file from form: " ++ err.Error) StatusBadRequest,
          logPrintf "cannot get file from form: %v" s2)
      | .ok (file, fileheader) =>
        match ioCopy file with
        | (_, some err) =>
          some (httpError w ("cannot copy images to file on buf: " ++ err.Error)
              StatusInternalServerError,
            logPrintf "cannot copy images to file on buf: %v" s2)
        | (fileBuf, none) =>
          let s3 := logPrintf "The required file is written to the byte buffer" s2
          match createKey fuel fileheader.Filename s3 with
          | none => none
          | some ((_, some err), s4) =>
            some (httpError w ("cannot get a key to write to the database: " ++ err.Error)
                StatusBadRequest,
              logPrintf "cannot get a key to write to the database: %v" s4)
          | some ((key, none), s4) =>
            let s5 := logPrintf "To store the file in the hash table, a key %q is generated" s4
            match DB.Set fileheader.Filename key fileBuf s5 with
            | (some err, s6) =>
              some (httpError w ("The image has not been added to the database: " ++ err.Error)
                StatusInternalServerError, s6)
            | (none, s6) =>
              let s7 := logPrintf "The file is written to the database" s6
              let link := userLink r1 key
              let s8 := logPrintf "A link %q for the user has been generated" s7
              match h.templLink.Execute w (.link link) with
              | (some err, w1) =>
                some (httpError w1 ("The template was not recorded: " ++ err.Error)
                  StatusInternalServerError, logPrintf "The template was not recorded" s8)
              | (none, w1) => some (w1, logPrintf "A link %q has been sent to the client" s8)

/-! ## Vocabulary of the properties -/

/-- A draw is the code of a digit, an upper-case or a lower-case letter. -/
def inAlphabet (d : Nat) : Bool :=
  (48 ≤ d && d ≤ 57) || (65 ≤ d && d ≤ 90) || (97 ≤ d && d ≤ 122)

/-- A character is one of `0-9`, `A-Z`, `a-z`. -/
def isKeyChar (c : Char) : Bool := c.isDigit || c.isUpper || c.isLower

/-- The keys of the documents in the store. -/
def storeKeys (s : World) : List String := s.docs.map imageData.Key

/-- The state after `n` consecutive rounds of the loop of `createKey` in each of which
the existence check returned `(true, nil)`; `none` if one of the rounds went otherwise. -/
def collisions : Nat → World → Option World
  | 0, s => some s
  | n + 1, s =>
    match nextCandidate s with
    | some (_, (true, none), s1) => collisions n s1
    | _ => none

/-- A store with one image, no scheduled faults, and draws that spell `012345`, then
`ABCDEF` (with one rejected draw in between), then one more draw. -/
def demoWorld : World :=
  { docs := [{ Filename := "old.png", Key := "012345", File := [1, 2] }],
    RecordNotFound := false, faults := [],
    draws := [48, 49, 50, 51, 52, 53, 65, 1, 66, 67, 68, 69, 70, 7], log := [] }

/-- The data of the error page for status 404: its text is `Not Found`. -/
def notFoundPage : TemplateData := .page { Number := 404, Text := "Not Found" }

/-- Templates that print the link, respectively the status text, and never fail. -/
def demoWeb : Web :=
  { form := bytesOf "<form>", imgDir := "./images",
    templLink := ⟨fun d =>
      (match d with
       | .link l => bytesOf l
       | .page _ => [], none)⟩,
    templError := ⟨fun d =>
      (match d with
       | .page p => bytesOf p.Text
       | .link _ => [], none)⟩ }

/-- A response writer nothing has been written to, with a transport that accepts all. -/
def freshWriter : ResponseWriter := { status := none, body := [], script := [] }

/-- A GET request for the image with key `ZZZZZZ`. -/
def demoGet : Request :=
  { Method := "GET", URL := "/images/ZZZZZZ", Header := [], Body := .malformed [] "EOF",
    limit := none, MultipartForm := none }

/-- The two lines `DB.Set` logs: one of them on every call, and nothing else logs them. -/
def isSetLine (m : String) : Bool :=
  m == "The image %s has not been added to the database: %v" ||
  m == "A new document has been added to the database: %v"

/-- The number of calls of `DB.Set` so far, read off the log. -/
def setCalls (s : World) : Nat := s.log.countP isSetLine

/-- The state in which `Upload` calls `createKey`, given the state it started in. -/
def beforeCreateKey (s : World) : World :=
  logPrintf "The required file is written to the byte buffer"
    (logPrintf "Processed no more than %d bytes of the request body"
      (logPrintf "Received a POST request from a client" s))

/-- The state in which `Upload` calls `DB.Set`, given the state `createKey` left. -/
def beforeSet (s : World) : World :=
  logPrintf "To store the file in the hash table, a key %q is generated" s

/-- A POST upload of a three-byte file `a.png` in the form field `image`. -/
def demoUpload : Request :=
  { Method := "POST", URL := "/upload", Header := [("X-Forwarded-Host", ["img.example"])],
    Body := .formData "b"
      [{ name := "image", filename := "a.png", header := fileHeaderLines "image" "a.png",
         content := [1, 2, 3], readFault := none }] (some []),
    limit := none, MultipartForm := none }

/-- The struct `Auth` of package db. -/
structure Auth where
  AuthSource : String
  Username : String
  Password : String
deriving DecidableEq, Repr

/-- What `os.Stat` reports about a file, as far as `parseAuthfile` reads it. -/
structure FileInfo where
  /-- The field `info.Sys().(*syscall.Stat_t).Uid`. -/
  Uid : Nat
  /-- The bits of `info.Mode()`. -/
  Mode : Nat
deriving DecidableEq, Repr

/-- A file of the file system. -/
structure FileEntry where
  info : FileInfo
  content : Bytes
  /-- The error `os.ReadFile` meets on this file, if any. -/
  readFault : Option String
deriving DecidableEq, Repr

/-- The operating system as `configParse` sees it. -/
structure Sys where
  /-- The files that exist, by name. -/
  files : List (String × FileEntry)
  /-- The value of `os.Getuid()`. -/
  uid : Int
  /-- The format strings of the `log.Printf` calls made so far. -/
  log : List String
deriving DecidableEq, Repr

/-- A call `log.Printf(format, ...)` during start-up, recorded by its format string. -/
def sysLog (format : String) (sys : Sys) : Sys :=
  { sys with log := sys.log ++ [format] }

/-- The function `os.Stat`. -/
def osStat (sys : Sys) (filename : String) : Except Error FileInfo :=
  match sys.files.lookup filename with
  | some e => .ok e.info
  | none => .error (.fault ("stat " ++ filename ++ ": no such file or directory"))

/-- The function `os.ReadFile`. -/
def osReadFile (sys : Sys) (filename : String) : Except Error Bytes :=
  match sys.files.lookup filename with
  | some e =>
    match e.readFault with
    | some msg => .error (.fault msg)
    | none => .ok e.content
  | none => .error (.fault ("open " ++ filename ++ ": no such file or directory"))

/-- The method `info.Mode().Perm()`: the bits under `ModePerm = 0o777`. -/
def Perm (mode : Nat) : Nat := mode &&& 0o777

/-- The call `fmt.Sprintf("%b", n)` for an unsigned `n`: its binary digits. -/
def sprintfBinary (n : Nat) : String := String.mk (Nat.toDigits 2 n)

/-- The value of a digit character in `strconv`, from `0-9`, `a-z`, `A-Z`. -/
def digitValue (c : Char) : Option Nat :=
  if '0' ≤ c ∧ c ≤ '9' then some (c.toNat - '0'.toNat)
  else if 'a' ≤ c ∧ c ≤ 'z' then some (c.toNat - 'a'.toNat + 10)
  else if 'A' ≤ c ∧ c ≤ 'Z' then some (c.toNat - 'A'.toNat + 10)
  else none

/-- The digit loop of `strconv.ParseUint`; `none` for a character that is no digit of the
base. -/
def parseDigits (base : Nat) : Nat → List Char → Option Nat
  | acc, [] => some acc
  | acc, c :: cs =>
    match digitValue c with
    | none => none
    | some d => if d < base then parseDigits base (acc * base + d) cs else none

/-- The function `strconv.ParseInt(s, base, bitSize)` for a base from 2 to 36 and a bit
size from 1 to 64: an optional sign and digits of the base; a value out of range is
clamped and reported as a range error. -/
def ParseInt (s : String) (base bitSize : Nat) : Int × Option Error :=
  let (neg, digits) :=
    match s.data with
    | '+' :: ds => (false, ds)
    | '-' :: ds => (true, ds)
    | ds => (false, ds)
  if digits = [] then (0, some (.fault "strconv.ParseInt: invalid syntax"))
  else
    match parseDigits base 0 digits with
    | none => (0, some (.fault "strconv.ParseInt: invalid syntax"))
    | some un =>
      let cutoff := 2 ^ (bitSize - 1)
      if !neg && un ≥ cutoff then
        ((cutoff : Int) - 1, some (.fault "strconv.ParseInt: value out of range"))
      else if neg && un > cutoff then
        (-(cutoff : Int), some (.fault "strconv.ParseInt: value out of range"))
      else (if neg then -(un : Int) else (un : Int), none)

/-- The function `parseAuthfile`; `jsonUnmarshal` stands for `json.Unmarshal` into a
`db.Auth`. The variable `err` is the one the source assigns at each step. -/
def parseAuthfile (jsonUnmarshal : Bytes → Except Error Auth) (filename : String)
    (sys : Sys) : (Option Auth × Option Error) × Sys :=
  match osStat sys filename with
  | .error err => ((none, some err), sysLog "cannot get info about %v: %v" sys)
  | .ok info =>
    let uidFile := info.Uid
    let uidCurrent := sys.uid
    if uidCurrent != (uidFile : Int) then
      ((none, some (.errorf ("The user ID of the process does not match the ID of the " ++
        "owner of the file with the auth data"))), sys)
    else
      let perm := sprintfBinary (Perm info.Mode)
      let (permb, err) := ParseInt perm 2 64
      if err != none then
        ((none, err), sysLog ("cannot interprets a string with perm and returns the " ++
          "corresponding int value: %v") sys)
      else
        let flagCheck : Int := 0b111111
        if Int.land permb flagCheck > 0 then
          ((none, err),
            sysLog "Groups and others should not have access rights to the auth file: %v" sys)
        else
          match osReadFile sys filename with
          | .error err => ((none, some err), sysLog "cannot read auth file: %v: %v" sys)
          | .ok buf =>
            match jsonUnmarshal buf with
            | .error err =>
              ((none, some err), sysLog "cannot unmarshal buf with auth data: %v" sys)
            | .ok authFields => ((some authFields, none), sys)

/-- The values of the command-line flags after `flag.Parse()`. -/
structure Flags where
  port : Int
  imagesDir : String
  formFile : String
  URIDb : String
  nameDb : String
  nameCollection : String
  authFile : String
deriving DecidableEq, Repr

/-- The struct `config`; `authData` is a pointer and may be nil. -/
structure config where
  port : String
  imgDir : String
  formFile : String
  URIDb : String
  nameDb : String
  nameCollection : String
  authData : Option Auth
deriving DecidableEq, Repr

/-- The function `configParse`, from the parsed flags on. -/
def configParse (jsonUnmarshal : Bytes → Except Error Auth) (flags : Flags) (sys : Sys) :
    (Option config × Option Error) × Sys :=
  match parseAuthfile jsonUnmarshal flags.authFile sys with
  | ((_, some err), sys1) => ((none, some err), sys1)
  | ((data, none), sys1) =>
    if flags.port < 0 ∨ flags.port > 65535 then
      ((none, some (.errorf ("invalid port value: " ++ toString flags.port))), sys1)
    else if flags.formFile = "" then
      ((none, some (.errorf
        "There is no html file with the form in the command line args")), sys1)
    else
      ((some { port := toString flags.port, imgDir := flags.imagesDir,
               formFile := flags.formFile, URIDb := flags.URIDb, nameDb := flags.nameDb,
               nameCollection := flags.nameCollection, authData := data }, none), sys1)

/-- The struct `options.Credential`, as far as `connectToDB` fills it. -/
structure Credential where
  AuthSource : String
  Username : String
  Password : String
deriving DecidableEq, Repr

/-- A handle on a collection: where it lives and the credential of its client. -/
structure Collection where
  URI : String
  nameDb : String
  nameCollection : String
  credential : Credential
deriving DecidableEq, Repr

/-- How a call ends: with a run-time panic, or by returning. -/
inductive Call (α : Type) where
  | panicked (msg : String)
  | returned (a : α)
deriving DecidableEq, Repr

/-- The function `connectToDB`; the two faults are the errors of `mongo.Connect` and of
`client.Ping`, if any. Reading the fields of a nil `authData` panics. -/
def connectToDB (URIDb nameDb nameCollection : String) (authData : Option Auth)
    (connectFault pingFault : Option String) : Call (Option Collection × Option Error) :=
  match authData with
  | none => .panicked "runtime error: invalid memory address or nil pointer dereference"
  | some a =>
    let credential : Credential :=
      { AuthSource := a.AuthSource, Username := a.Username, Password := a.Password }
    match connectFault with
    | some msg => .returned (none, some (.fault msg))
    | none =>
      match pingFault with
      | some msg => .returned (none, some (.fault msg))
      | none =>
        .returned (some { URI := URIDb, nameDb := nameDb, nameCollection := nameCollection,
                          credential := credential }, none)

/-- The function `NewDB`. -/
def NewDB (URIDb nameDb nameCollection : String) (authData : Option Auth)
    (connectFault pingFault : Option String) : Call (Option Collection × Option Error) :=
  match connectToDB URIDb nameDb nameCollection authData connectFault pingFault with
  | .panicked msg => .panicked msg
  | .returned (_, some err) => .returned (none, some err)
  | .returned (collection, none) => .returned (collection, none)

/-- How the start of `main` ends. -/
inductive Startup where
  /-- The call `log.Fatalf` or `log.Fatal`: the process exits. -/
  | fatal (err : Error)
  /-- A run-time panic. -/
  | panicked (msg : String)
  /-- The value `db` is defined and `main` goes on to the web server. -/
  | connected (db : Option Collection)
deriving DecidableEq, Repr

/-- The function `main` up to and including `db.NewDB`. -/
def mainUntilNewDB (jsonUnmarshal : Bytes → Except Error Auth) (flags : Flags) (sys : Sys)
    (connectFault pingFault : Option String) : Startup :=
  match configParse jsonUnmarshal flags sys with
  | ((_, some err), _) => .fatal err
  | ((none, none), _) => .panicked "runtime error: invalid memory address or nil pointer dereference"
  | ((some conf, none), _) =>
    match NewDB conf.URIDb conf.nameDb conf.nameCollection conf.authData
        connectFault pingFault with
    | .panicked msg => .panicked msg
    | .returned (_, some err) => .fatal err
    | .returned (db, none) => .connected db

/-- An auth file `auth.json` owned by user 1000 with mode `0o644`, read by user 1000. -/
def demoSys : Sys :=
  { files := [("auth.json",
      { info := { Uid := 1000, Mode := 0o644 },
        content := bytesOf "<credentials>", readFault := none })],
    uid := 1000, log := [] }

/-- A decoder that accepts every file. -/
def demoUnmarshal (_buf : Bytes) : Except Error Auth :=
  .ok { AuthSource := "admin", Username := "user", Password := "secret" }

/-- Flags with a valid port and form file, and `auth.json` as the auth file. -/
def demoFlags : Flags :=
  { port := 8080, imagesDir := "./images", formFile := "./web/form.html",
    URIDb := "mongodb://localhost:27017", nameDb := "share-image",
    nameCollection := "images", authFile := "auth.json" }

/-! # Properties -/

/-! ## Key generator -/

theorem rejected_false_iff (d : Nat) : rejected d = false ↔ inAlphabet d = true := by
  unfold rejected inAlphabet startInt endInt startUpA endUpA startLoA endLoA
  simp only [Bool.or_eq_true, Bool.and_eq_true, decide_eq_true_eq, Bool.or_eq_false_iff,
    Bool.and_eq_false_iff, decide_eq_false_iff_not]
  omega

theorem rejected_eq_not_inAlphabet (d : Nat) : rejected d = !inAlphabet d := by
  have h := rejected_false_iff d
  cases h1 : rejected d <;> cases h2 : inAlphabet d <;> simp_all

theorem accepted_lt (d : Nat) (h : rejected d = false) : d < 123 := by
  rw [rejected_false_iff] at h
  simp [inAlphabet] at h
  omega

set_option maxRecDepth 100000 in
theorem accepted_isKeyChar : ∀ d : Nat, d < 123 → rejected d = false →
    isKeyChar (Char.ofNat (d % 256)) = true ∧ (Char.ofNat (d % 256)).utf8Size = 1 := by
  decide

theorem sampleLoop_accepts (draws : List Nat) : ∀ (c c1 : Nat) (rest : List Nat),
    sampleLoop c draws = some (c1, rest) → rejected c1 = false := by
  induction draws with
  | nil =>
    intro c c1 rest h
    cases hc : rejected c <;> simp [sampleLoop, hc] at h
    rw [← h.1]; exact hc
  | cons d ds ih =>
    intro c c1 rest h
    cases hc : rejected c <;> simp [sampleLoop, hc] at h
    · rw [← h.1]; exact hc
    · exact ih d c1 rest h

theorem sampleLoop_dropWhile (draws : List Nat) : ∀ c : Nat, rejected c = true →
    sampleLoop c draws =
      match draws.dropWhile rejected with
      | [] => none
      | d :: rest => some (d, rest) := by
  induction draws with
  | nil => intro c hc; simp [sampleLoop, hc]
  | cons d ds ih =>
    intro c hc
    cases hd : rejected d
    · cases ds <;> simp [sampleLoop, hc, hd, List.dropWhile]
    · simp [sampleLoop, hc, hd, List.dropWhile, ih d hd]

theorem generateLoop_sound : ∀ (lim : Nat) (res : String) (draws : List Nat) (key : String)
    (rest : List Nat), generateLoop lim res draws = some (key, rest) →
    ∃ l : List Char, key.data = res.data ++ l ∧ l.length = lim ∧
      ∀ c ∈ l, isKeyChar c = true ∧ c.utf8Size = 1 := by
  intro lim
  induction lim with
  | zero =>
    intro res draws key rest h
    simp [generateLoop] at h
    exact ⟨[], by simp [h.1], rfl, by simp⟩
  | succ n ih =>
    intro res draws key rest h
    unfold generateLoop at h
    cases hs : sampleLoop 0 draws with
    | none => simp [hs] at h
    | some p =>
      obtain ⟨c, rest1⟩ := p
      simp only [hs] at h
      obtain ⟨l, hl, hlen, hall⟩ := ih _ _ _ _ h
      have hacc := sampleLoop_accepts draws 0 c rest1 hs
      have hk := accepted_isKeyChar c (accepted_lt c hacc) hacc
      refine ⟨Char.ofNat (c % 256) :: l, ?_, by simp [hlen], ?_⟩
      · rw [hl]; simp [String.data_append, String.singleton]
      · intro x hx
        rcases List.mem_cons.1 hx with rfl | hx
        · exact hk
        · exact hall x hx

theorem utf8ByteSize_go_ascii (l : List Char) (h : ∀ c ∈ l, c.utf8Size = 1) :
    String.utf8ByteSize.go l = l.length := by
  induction l with
  | nil => rfl
  | cons c cs ih =>
    simp only [String.utf8ByteSize.go, List.length_cons]
    rw [ih (fun x hx => h x (List.mem_cons_of_mem _ hx)), h c (List.mem_cons_self _ _)]

/-- C1: whenever `generateKey` returns on draws in 0..122, the key has exactly six
characters (and six bytes), each of them one of `0-9`, `A-Z`, `a-z`. -/
theorem generateKey_length_and_alphabet (draws : List Nat) (key : String) (rest : List Nat)
    (_hrange : ∀ d ∈ draws, d < 123) (hret : generateKey draws = some (key, rest)) :
    key.length = 6 ∧ key.utf8ByteSize = 6 ∧ ∀ c ∈ key.data, isKeyChar c = true := by
  obtain ⟨l, hl, hlen, hall⟩ := generateLoop_sound keyLen "" draws key rest hret
  have hd : key.data = l := by simpa using hl
  have hlen6 : key.data.length = 6 := by rw [hd, hlen]; rfl
  refine ⟨hlen6, ?_, ?_⟩
  · have : key.utf8ByteSize = String.utf8ByteSize.go key.data := by
      cases key; rfl
    rw [this, utf8ByteSize_go_ascii _ (by rw [hd]; exact fun c hc => (hall c hc).2), hlen6]
  · rw [hd]; exact fun c hc => (hall c hc).1

theorem generateKey_length_and_alphabet_witness :
    (∀ d ∈ [1, 48, 60, 65, 66, 122, 97, 57, 50], d < 123) ∧
    generateKey [1, 48, 60, 65, 66, 122, 97, 57, 50] = some ("0ABza9", [50]) ∧
    ("0ABza9".length = 6 ∧ "0ABza9".utf8ByteSize = 6 ∧
      ∀ c ∈ "0ABza9".data, isKeyChar c = true) :=
  ⟨by decide, by decide,
    generateKey_length_and_alphabet [1, 48, 60, 65, 66, 122, 97, 57, 50] "0ABza9" [50]
      (by decide) (by decide)⟩

theorem filter_takeWhile_rejected (l : List Nat) :
    (l.takeWhile rejected).filter inAlphabet = [] := by
  induction l with
  | nil => rfl
  | cons d ds ih =>
    cases hd : rejected d
    · simp [List.takeWhile, hd]
    · have : inAlphabet d = false := by
        rw [rejected_eq_not_inAlphabet] at hd; simpa using hd
      simp [List.takeWhile, hd, List.filter, this, ih]

theorem generateLoop_complete : ∀ (lim : Nat) (res : String) (draws : List Nat),
    lim ≤ (draws.filter inAlphabet).length →
    ∃ used rest : List Nat, draws = used ++ rest ∧
      used.filter inAlphabet = (draws.filter inAlphabet).take lim ∧
      (∀ d, used.getLast? = some d → inAlphabet d = true) ∧
      generateLoop lim res draws =
        some (res ++ String.mk ((used.filter inAlphabet).map Char.ofNat), rest) := by
  intro lim
  induction lim with
  | zero =>
    intro res draws _
    refine ⟨[], draws, rfl, by simp, by simp, ?_⟩
    simp [generateLoop]
  | succ n ih =>
    intro res draws hlen
    have hsplit : draws = draws.takeWhile rejected ++ draws.dropWhile rejected :=
      (List.takeWhile_append_dropWhile _ _).symm
    have hfil : draws.filter inAlphabet = (draws.dropWhile rejected).filter inAlphabet := by
      conv_lhs => rw [hsplit]
      rw [List.filter_append, filter_takeWhile_rejected, List.nil_append]
    cases hdw : draws.dropWhile rejected with
    | nil => rw [hfil, hdw] at hlen; simp at hlen
    | cons d rest1 =>
      have hd : rejected d = false := by
        have := List.head_dropWhile_not rejected draws (by rw [hdw]; simp)
        simpa [hdw] using this
      have hdin : inAlphabet d = true := (rejected_false_iff d).1 hd
      have hfil2 : draws.filter inAlphabet = d :: rest1.filter inAlphabet := by
        rw [hfil, hdw, List.filter_cons_of_pos hdin]
      rw [hfil2] at hlen
      have hlen1 : n ≤ (rest1.filter inAlphabet).length := by simpa using hlen
      obtain ⟨used1, rest, hu, hf, hlast, hgen⟩ :=
        ih (res ++ String.singleton (Char.ofNat (d % 256))) rest1 hlen1
      refine ⟨draws.takeWhile rejected ++ d :: used1, rest, ?_, ?_, ?_, ?_⟩
      · conv_lhs => rw [hsplit, hdw, hu]
        simp
      · rw [List.filter_append, filter_takeWhile_rejected, List.nil_append,
          List.filter_cons_of_pos hdin, hf, hfil2, List.take_succ_cons]
      · intro x hx
        cases used1 with
        | nil => simp at hx; rw [← hx]; exact hdin
        | cons u us =>
          apply hlast x
          rw [List.getLast?_append_of_ne_nil _ (by simp)] at hx
          simpa [List.getLast?_cons_cons] using hx
      · unfold generateLoop
        rw [sampleLoop_dropWhile draws 0 (by decide), hdw]
        simp only
        rw [hgen]
        have hmod : d % 256 = d := Nat.mod_eq_of_lt (by have := accepted_lt d hd; omega)
        rw [List.filter_append, filter_takeWhile_rejected, List.nil_append,
          List.filter_cons_of_pos hdin, hmod]
        congr 2
        apply String.ext
        simp [String.data_append, String.singleton]

/-- C10: rejection sampling. When the draws (all in 0..122) hold at least six values of the
alphabet ranges, `generateKey` returns; the key is the string of the first six in-alphabet
draws in order; the draws it consumed end with the sixth of them, so every other consumed
draw was discarded, and each character comes from a draw of its own. -/
theorem generateKey_rejection_sampling (draws : List Nat) (_hrange : ∀ d ∈ draws, d < 123)
    (hsix : 6 ≤ (draws.filter inAlphabet).length) :
    ∃ used rest : List Nat, draws = used ++ rest ∧
      generateKey draws =
        some (String.mk (((draws.filter inAlphabet).take 6).map Char.ofNat), rest) ∧
      used.filter inAlphabet = (draws.filter inAlphabet).take 6 ∧
      (used.filter inAlphabet).length = 6 ∧ 6 ≤ used.length ∧
      (∀ d, used.getLast? = some d → inAlphabet d = true) := by
  obtain ⟨used, rest, hu, hf, hlast, hgen⟩ := generateLoop_complete keyLen "" draws hsix
  have hlen : (used.filter inAlphabet).length = 6 := by
    rw [hf, List.length_take]; exact Nat.min_eq_left hsix
  refine ⟨used, rest, hu, ?_, hf, hlen, ?_, hlast⟩
  · unfold generateKey
    rw [hgen, hf]
    congr 2
  · exact hlen ▸ List.length_filter_le _ _

theorem generateKey_rejection_sampling_witness :
    (∀ d ∈ [47, 48, 58, 64, 65, 91, 96, 97, 0, 122, 57, 90, 51, 52], d < 123) ∧
    6 ≤ (([47, 48, 58, 64, 65, 91, 96, 97, 0, 122, 57, 90, 51, 52] : List Nat).filter
      inAlphabet).length ∧
    ∃ used rest : List Nat,
      [47, 48, 58, 64, 65, 91, 96, 97, 0, 122, 57, 90, 51, 52] = used ++ rest ∧
      generateKey [47, 48, 58, 64, 65, 91, 96, 97, 0, 122, 57, 90, 51, 52] =
        some (String.mk ((([47, 48, 58, 64, 65, 91, 96, 97, 0, 122, 57, 90, 51, 52].filter
          inAlphabet).take 6).map Char.ofNat), rest) ∧
      used.filter inAlphabet =
        ([47, 48, 58, 64, 65, 91, 96, 97, 0, 122, 57, 90, 51, 52].filter inAlphabet).take 6 ∧
      (used.filter inAlphabet).length = 6 ∧ 6 ≤ used.length ∧
      (∀ d, used.getLast? = some d → inAlphabet d = true) :=
  ⟨by decide, by decide,
    generateKey_rejection_sampling [47, 48, 58, 64, 65, 91, 96, 97, 0, 122, 57, 90, 51, 52]
      (by decide) (by decide)⟩

/-! ## Key allocator -/

theorem popFault_docs (s : World) : (popFault s).2.docs = s.docs := by
  unfold popFault; cases s.faults <;> rfl

theorem find_key_none (docs : List imageData) (key : String) :
    docs.find? (fun d => d.Key == key) = none ↔ key ∉ docs.map imageData.Key := by
  constructor
  · intro h hk
    obtain ⟨d, hd, rfl⟩ := List.mem_map.1 hk
    have := (List.find?_eq_none.1 h) d hd
    simp at this
  · intro h
    rw [List.find?_eq_none]
    intro d hd hk
    exact h (List.mem_map.2 ⟨d, hd, by simpa using hk⟩)

theorem find_key_some (docs : List imageData) (key : String) (d : imageData)
    (h : docs.find? (fun d => d.Key == key) = some d) : key ∈ docs.map imageData.Key := by
  have h1 := List.find?_some h
  have h2 := List.mem_of_find?_eq_some h
  simp only [beq_iff_eq] at h1
  exact List.mem_map.2 ⟨d, h2, h1⟩

theorem IsExist_docs (key : String) (s : World) : (DB.IsExist key s).2.docs = s.docs := by
  unfold DB.IsExist FindOne
  have hd := popFault_docs s
  rcases hp : popFault s with ⟨f, s0⟩
  rw [hp] at hd
  simp only at hd ⊢
  rcases f with _ | (msg | msg) <;> cases hf : s0.docs.find? (fun d => d.Key == key) <;>
    simp [hf, errorsIs, logPrintf, hd]

theorem IsExist_false_absent (key : String) (s s1 : World)
    (h : DB.IsExist key s = ((false, none), s1)) : key ∉ storeKeys s := by
  unfold DB.IsExist FindOne at h
  have hd := popFault_docs s
  rcases hp : popFault s with ⟨f, s0⟩
  rw [hp] at hd h
  simp only at hd h
  unfold storeKeys
  rw [← hd, ← find_key_none]
  rcases f with _ | (msg | msg) <;> cases hf : s0.docs.find? (fun d => d.Key == key) <;>
    simp [hf, errorsIs, logPrintf] at h ⊢

theorem IsExist_true_present (key : String) (s s1 : World)
    (h : DB.IsExist key s = ((true, none), s1)) : key ∈ storeKeys s := by
  unfold DB.IsExist FindOne at h
  have hd := popFault_docs s
  rcases hp : popFault s with ⟨f, s0⟩
  rw [hp] at hd h
  simp only at hd h
  unfold storeKeys
  rw [← hd]
  rcases f with _ | (msg | msg) <;> cases hf : s0.docs.find? (fun d => d.Key == key) <;>
    simp [hf, errorsIs, logPrintf] at h <;> exact find_key_some _ _ _ hf

theorem nextCandidate_some (s s1 : World) (key : String) (res : Bool × Option Error)
    (h : nextCandidate s = some (key, res, s1)) :
    ∃ rest, generateKey s.draws = some (key, rest) ∧
      DB.IsExist key { s with draws := rest } = (res, s1) := by
  unfold nextCandidate at h
  cases hg : generateKey s.draws with
  | none => simp [hg] at h
  | some p =>
    obtain ⟨k, rest⟩ := p
    simp only [hg, Option.some.injEq, Prod.mk.injEq] at h
    obtain ⟨rfl, h1, h2⟩ := h
    exact ⟨rest, rfl, by rw [← h1, ← h2]⟩

theorem nextCandidate_docs (s s1 : World) (key : String) (res : Bool × Option Error)
    (h : nextCandidate s = some (key, res, s1)) : s1.docs = s.docs := by
  obtain ⟨rest, _, h2⟩ := nextCandidate_some s s1 key res h
  have := IsExist_docs key { s with draws := rest }
  rw [h2] at this
  exact this

theorem createKey_sound : ∀ (fuel : Nat) (str : String) (s : World) (key : String) (s1 : World),
    createKey fuel str s = some ((key, none), s1) →
    ∃ (s0 : World) (rest : List Nat), s0.docs = s.docs ∧
      generateKey s0.draws = some (key, rest) ∧
      DB.IsExist key { s0 with draws := rest } = ((false, none), s1) := by
  intro fuel
  induction fuel with
  | zero => intro str s key s1 h; simp [createKey] at h
  | succ n ih =>
    intro str s key s1 h
    unfold createKey at h
    cases hn : nextCandidate s with
    | none => simp [hn] at h
    | some p =>
      obtain ⟨k, ⟨isFound, err⟩, s2⟩ := p
      obtain ⟨rest, hg, hx⟩ := nextCandidate_some s s2 k _ hn
      have hdocs := nextCandidate_docs s s2 k _ hn
      cases err with
      | some e => simp [hn] at h
      | none =>
        cases isFound with
        | false =>
          simp [hn] at h
          obtain ⟨rfl, rfl⟩ := h
          exact ⟨s, rest, rfl, hg, hx⟩
        | true =>
          simp [hn] at h
          obtain ⟨s0, rest0, h0, h1, h2⟩ := ih str s2 key s1 h
          exact ⟨s0, rest0, h0.trans hdocs, h1, h2⟩

/-- C2: a key that `createKey` returns with a nil error is not a key of the store: the
store is the same before and after, the final `IsExist` call was made for exactly this
key against these contents and reported `(false, nil)`, and no check of this key against
these contents reports `true`. -/
theorem createKey_returns_absent_key (fuel : Nat) (str : String) (s : World) (key : String)
    (s1 : World) (hret : createKey fuel str s = some ((key, none), s1)) :
    key ∉ storeKeys s ∧ s1.docs = s.docs ∧
    (∃ s0 : World, s0.docs = s.docs ∧ DB.IsExist key s0 = ((false, none), s1)) ∧
    (∀ s0 s2 : World, s0.docs = s.docs → DB.IsExist key s0 ≠ ((true, none), s2)) := by
  obtain ⟨s0, rest, h0, _, hx⟩ := createKey_sound fuel str s key s1 hret
  have habs : key ∉ storeKeys s := by
    have := IsExist_false_absent key _ _ hx
    simpa [storeKeys, h0] using this
  refine ⟨habs, ?_, ⟨{ s0 with draws := rest }, h0, hx⟩, ?_⟩
  · have := IsExist_docs key { s0 with draws := rest }
    rw [hx] at this
    exact this.trans h0
  · intro t t2 ht hc
    have := IsExist_true_present key t t2 hc
    exact habs (by simpa [storeKeys, ht] using this)

theorem createKey_after_collisions : ∀ (n fuel : Nat) (str : String) (s s1 : World),
    collisions n s = some s1 → n ≤ fuel →
    createKey fuel str s = createKey (fuel - n) str s1 := by
  intro n
  induction n with
  | zero => intro fuel str s s1 h _; simp [collisions] at h; simp [h]
  | succ n ih =>
    intro fuel str s s1 h hle
    obtain ⟨f, rfl⟩ : ∃ f, fuel = f + 1 := ⟨fuel - 1, by omega⟩
    unfold collisions at h
    cases hn : nextCandidate s with
    | none => simp [hn] at h
    | some p =>
      obtain ⟨k, ⟨isFound, err⟩, s2⟩ := p
      cases err with
      | some e => simp [hn] at h
      | none =>
        cases isFound with
        | false => simp [hn] at h
        | true =>
          simp only [hn] at h
          rw [createKey, hn]
          simp only [Bool.true_eq_false, if_false, beq_iff_eq]
          rw [ih f str s2 s1 h (by omega)]
          congr 1
          omega

theorem createKey_running_during_collisions : ∀ (n : Nat) (str : String) (s s1 : World),
    collisions n s = some s1 → ∀ k, k ≤ n → createKey k str s = none := by
  intro n
  induction n with
  | zero => intro str s s1 _ k hk; obtain rfl : k = 0 := by omega
            rfl
  | succ n ih =>
    intro str s s1 h k hk
    cases k with
    | zero => rfl
    | succ k =>
      unfold collisions at h
      cases hn : nextCandidate s with
      | none => simp [hn] at h
      | some p =>
        obtain ⟨c, ⟨isFound, err⟩, s2⟩ := p
        cases err with
        | some e => simp [hn] at h
        | none =>
          cases isFound with
          | false => simp [hn] at h
          | true =>
            simp only [hn] at h
            rw [createKey, hn]
            simp only [Bool.true_eq_false, if_false, beq_iff_eq]
            exact ih str s2 s1 h k (by omega)

/-- C3: let the checks of the first `n` candidates return `(true, nil)` and the check of
the next candidate return something else. Then `createKey` is still in its loop after up
to `n` rounds, and with more rounds it returns right after that check, in the state that
check left (no further generation or check): the empty key with the same error if the
check returned an error, the candidate with a nil error if it returned `(false, nil)`. -/
theorem createKey_stops_at_first_other_outcome (n fuel : Nat) (str : String)
    (s s1 s2 : World) (key : String) (res : Bool × Option Error)
    (hretry : collisions n s = some s1)
    (hnext : nextCandidate s1 = some (key, res, s2))
    (hres : res ≠ (true, none)) (hfuel : n < fuel) :
    (∀ k, k ≤ n → createKey k str s = none) ∧
    (∀ err, res.2 = some err → createKey fuel str s = some (("", some err), s2)) ∧
    (res.2 = none → createKey fuel str s = some ((key, none), s2)) := by
  refine ⟨createKey_running_during_collisions n str s s1 hretry, ?_⟩
  rw [createKey_after_collisions n fuel str s s1 hretry (by omega)]
  obtain ⟨f, hf⟩ : ∃ f, fuel - n = f + 1 := ⟨fuel - n - 1, by omega⟩
  rw [hf, createKey, hnext]
  obtain ⟨isFound, err⟩ := res
  constructor
  · intro e he
    simp only at he
    subst he
    rfl
  · intro h
    simp only at h
    subst h
    cases isFound with
    | false => rfl
    | true => exact absurd rfl hres

theorem createKey_returns_absent_key_witness :
    createKey 2 "a.png" demoWorld =
      some (("ABCDEF", none), { demoWorld with
        draws := [7], log := ["The file was not found in the database: %v"] }) ∧
    "ABCDEF" ∉ storeKeys demoWorld :=
  ⟨by decide,
    (createKey_returns_absent_key 2 "a.png" demoWorld "ABCDEF"
      { demoWorld with draws := [7], log := ["The file was not found in the database: %v"] }
      (by decide)).1⟩

theorem createKey_stops_at_first_other_outcome_witness :
    collisions 1 { demoWorld with faults := [none, some (.driver "timeout")] } =
      some { demoWorld with faults := [some (.driver "timeout")],
                            draws := [65, 1, 66, 67, 68, 69, 70, 7] } ∧
    createKey 1 "a.png" { demoWorld with faults := [none, some (.driver "timeout")] } = none ∧
    createKey 2 "a.png" { demoWorld with faults := [none, some (.driver "timeout")] } =
      some (("", some (.fault "timeout")), { demoWorld with
        draws := [7], log := ["The file was not extracted from the database: %v"] }) :=
  have h := createKey_stops_at_first_other_outcome 1 2 "a.png"
    { demoWorld with faults := [none, some (.driver "timeout")] }
    { demoWorld with faults := [some (.driver "timeout")],
                     draws := [65, 1, 66, 67, 68, 69, 70, 7] }
    { demoWorld with draws := [7], log := ["The file was not extracted from the database: %v"] }
    "ABCDEF" (false, some (.fault "timeout")) (by decide) (by decide) (by decide) (by decide)
  ⟨by decide, h.1 1 (Nat.le_refl 1), h.2.1 (.fault "timeout") rfl⟩

/-! ## Retrieval handler -/

theorem bytesOf_append (a b : String) : bytesOf (a ++ b) = bytesOf a ++ bytesOf b := by
  simp [bytesOf, String.data_append, List.flatMap_append]

theorem WriteHeader_fresh (w : ResponseWriter) (code : Nat) (hw : w.status = none) :
    w.WriteHeader code = { w with status := some code } := by
  simp [ResponseWriter.WriteHeader, hw]

theorem httpError_fresh (w : ResponseWriter) (msg : String) (code : Nat)
    (hw : w.status = none) :
    (httpError w msg code).status = some code ∧
    (httpError w msg code).body = w.body ++ bytesOf (msg ++ "\n") := by
  simp [httpError, WriteHeader_fresh w code hw, ResponseWriter.Write]

theorem httpError_committed (w : ResponseWriter) (msg : String) (code c : Nat)
    (hw : w.status = some c) :
    (httpError w msg code).status = some c ∧
    (httpError w msg code).body = w.body ++ bytesOf (msg ++ "\n") := by
  simp [httpError, ResponseWriter.WriteHeader, hw, ResponseWriter.Write]

theorem Execute_body (t : Template) (w : ResponseWriter) (data : TemplateData) :
    (t.Execute w data).2.body = w.body ++ (t.render data).1 := by
  unfold Template.Execute ResponseWriter.Write
  rcases hr : t.render data with ⟨out, err⟩
  by_cases ho : out = []
  · simp [ho]
  · cases err <;> simp [ho]

theorem Execute_status_committed (t : Template) (w : ResponseWriter) (data : TemplateData)
    (c : Nat) (hw : w.status = some c) : (t.Execute w data).2.status = some c := by
  unfold Template.Execute ResponseWriter.Write
  rcases hr : t.render data with ⟨out, err⟩
  by_cases ho : out = []
  · simp [ho, hw]
  · cases err <;> simp [ho, hw]

theorem Execute_ok (t : Template) (w : ResponseWriter) (data : TemplateData)
    (h1 : (t.render data).2 = none) (h2 : (w.nextWrite (t.render data).1).2 = none) :
    (t.Execute w data).1 = none := by
  unfold Template.Execute ResponseWriter.Write
  rcases hr : t.render data with ⟨out, err⟩
  rw [hr] at h1 h2
  simp only at h1 h2
  subst h1
  by_cases ho : out = []
  · simp [ho]
  · simp [ho, h2]

theorem Get_not_found (key : String) (s : World)
    (hf : ∀ msg, (popFault s).1 ≠ some (.driver msg)) (hk : key ∉ storeKeys s) :
    DB.Get key s = (([], some .ErrNoDocuments),
      logPrintf "The file was not found in the database: %v"
        { (popFault s).2 with RecordNotFound := true }) := by
  unfold DB.Get FindOne
  have hd := popFault_docs s
  rcases hp : popFault s with ⟨f, s0⟩
  rw [hp] at hd hf
  simp only at hd hf ⊢
  have hnone : s0.docs.find? (fun d => d.Key == key) = none := by
    rw [find_key_none, hd]; exact hk
  rcases f with _ | (msg | msg)
  · simp [hnone, errorsIs]
  · exact absurd rfl (hf msg)
  · simp [hnone, errorsIs]

theorem Get_driver_fault (key : String) (s : World) (msg : String)
    (hf : (popFault s).1 = some (.driver msg)) :
    DB.Get key s =
      (([], some (.wrapf "The file was not extracted from the database" (.fault msg))),
        logPrintf "The file was not extracted from the database: %v"
          { (popFault s).2 with RecordNotFound := false }) := by
  unfold DB.Get FindOne
  rcases hp : popFault s with ⟨f, s0⟩
  rw [hp] at hf
  simp only at hf ⊢
  subst hf
  simp [errorsIs]

theorem Get_marshal_fault (key : String) (s : World) (msg : String)
    (hf : (popFault s).1 = some (.marshal msg)) (hk : key ∈ storeKeys s) :
    DB.Get key s = (([], some (.fault msg)),
      logPrintf "BSON document not received: %v"
        { (popFault s).2 with RecordNotFound := false }) := by
  unfold DB.Get FindOne
  have hd := popFault_docs s
  rcases hp : popFault s with ⟨f, s0⟩
  rw [hp] at hd hf
  simp only at hd hf ⊢
  subst hf
  cases hfind : s0.docs.find? (fun d => d.Key == key) with
  | none => rw [find_key_none, hd] at hfind; exact absurd hk hfind
  | some d => simp

theorem popFault_logPrintf (format : String) (s : World) :
    popFault (logPrintf format s) = ((popFault s).1, logPrintf format (popFault s).2) := by
  obtain ⟨docs, rnf, faults, draws, log⟩ := s
  cases faults <;> rfl

theorem ServeImage_eq (h : Web) (w : ResponseWriter) (r : Request) (s : World) :
    ServeImage h w r s =
      ServeImageRespond h w (ServeImageGet r s).1 (ServeImageGet r s).2 := rfl

theorem Respond_not_found (h : Web) (w : ResponseWriter) (err : Error) (file : Bytes)
    (s : World) (hw : w.status = none) (hflag : s.RecordNotFound = true) :
    (ServeImageRespond h w (file, some err) s).1.status = some 404 ∧
    ∃ extra, (ServeImageRespond h w (file, some err) s).1.body =
        w.body ++ (h.templError.render notFoundPage).1 ++ extra ∧
      ((h.templError.render notFoundPage).2 = none →
        (w.nextWrite (h.templError.render notFoundPage).1).2 = none → extra = []) := by
  have hst := Execute_status_committed h.templError { w with status := some 404 }
    notFoundPage 404 rfl
  have hbody := Execute_body h.templError { w with status := some 404 } notFoundPage
  have hpage : (TemplateData.page { Number := StatusNotFound, Text := StatusText StatusNotFound })
      = notFoundPage := by decide
  unfold ServeImageRespond
  simp only [hflag, if_true, writeError, WriteHeader_fresh w _ hw, hpage]
  rcases hx : h.templError.Execute { w with status := some StatusNotFound } notFoundPage
    with ⟨e, w2⟩
  have hx404 : h.templError.Execute { w with status := some 404 } notFoundPage = (e, w2) := hx
  rw [hx404] at hst hbody
  simp only at hst hbody
  cases e with
  | none => exact ⟨hst, [], by simpa using hbody, fun _ _ => rfl⟩
  | some e =>
    simp only
    have hc := httpError_committed w2 ("The template was not recorded: " ++ err.Error)
      StatusInternalServerError 404 hst
    refine ⟨hc.1, _, by rw [hc.2, hbody], ?_⟩
    intro h1 h2
    have hok := Execute_ok h.templError { w with status := some 404 } notFoundPage h1 h2
    rw [hx404] at hok
    cases hok

theorem Respond_other_failure (h : Web) (w : ResponseWriter) (err : Error) (file : Bytes)
    (s : World) (hw : w.status = none) (hflag : s.RecordNotFound = false) :
    (ServeImageRespond h w (file, some err) s).1.status = some 500 ∧
    (ServeImageRespond h w (file, some err) s).1.body =
      w.body ++ bytesOf ("cannot get file: " ++ err.Error ++ "\n") := by
  unfold ServeImageRespond
  simp only [hflag, Bool.false_eq_true, if_false]
  exact httpError_fresh w _ _ hw

/-- For a request that runs alone, on a response nothing was written to yet: `ServeImage`
answers a `Get` that fails because no document has the key with status 404 and the error
template executed on the page data with text `Not Found` (nothing else in the body when
the execution succeeds); it answers a query failure and a marshalling failure with status
500 and a body that is `cannot get file: ` followed by the text of the error. -/
theorem ServeImage_alone_not_found_vs_other_failure (h : Web) (w : ResponseWriter)
    (r : Request) (s : World) (hw : w.status = none) :
    ((∀ msg, (popFault s).1 ≠ some (.driver msg)) → pathBase r.URL ∉ storeKeys s →
      (ServeImage h w r s).1.status = some 404 ∧
      ∃ extra, (ServeImage h w r s).1.body =
          w.body ++ (h.templError.render notFoundPage).1 ++ extra ∧
        ((h.templError.render notFoundPage).2 = none →
          (w.nextWrite (h.templError.render notFoundPage).1).2 = none → extra = [])) ∧
    (∀ msg, (popFault s).1 = some (.driver msg) →
      (ServeImage h w r s).1.status = some 500 ∧
      (ServeImage h w r s).1.body = w.body ++ bytesOf ("cannot get file: " ++
        (Error.wrapf "The file was not extracted from the database" (.fault msg)).Error
          ++ "\n")) ∧
    (∀ msg, (popFault s).1 = some (.marshal msg) → pathBase r.URL ∈ storeKeys s →
      (ServeImage h w r s).1.status = some 500 ∧
      (ServeImage h w r s).1.body =
        w.body ++ bytesOf ("cannot get file: " ++ (Error.fault msg).Error ++ "\n")) := by
  have hpop := popFault_logPrintf
    "A key for database search has been retrieved from the path: %s" s
  refine ⟨?_, ?_, ?_⟩
  · intro hf hk
    have hget : ServeImageGet r s = _ := Get_not_found (pathBase r.URL)
      (logPrintf "A key for database search has been retrieved from the path: %s" s)
      (by rw [hpop]; exact hf) hk
    rw [ServeImage_eq, hget]
    exact Respond_not_found h w _ _ _ hw rfl
  · intro msg hf
    have hget : ServeImageGet r s = _ := Get_driver_fault (pathBase r.URL)
      (logPrintf "A key for database search has been retrieved from the path: %s" s) msg
      (by rw [hpop]; exact hf)
    rw [ServeImage_eq, hget]
    exact Respond_other_failure h w _ _ _ hw rfl
  · intro msg hf hk
    have hget : ServeImageGet r s = _ := Get_marshal_fault (pathBase r.URL)
      (logPrintf "A key for database search has been retrieved from the path: %s" s) msg
      (by rw [hpop]; exact hf) hk
    rw [ServeImage_eq, hget]
    exact Respond_other_failure h w _ _ _ hw rfl

theorem popFault_fst (s : World) : (popFault s).1 = s.faults.head?.join := by
  obtain ⟨docs, rnf, faults, draws, log⟩ := s
  cases faults <;> rfl

theorem popFault_faults (s : World) : (popFault s).2.faults = s.faults.tail := by
  obtain ⟨docs, rnf, faults, draws, log⟩ := s
  cases faults <;> rfl

theorem Get_state (key : String) (s : World) :
    (DB.Get key s).2.docs = s.docs ∧ (DB.Get key s).2.faults = s.faults.tail := by
  unfold DB.Get FindOne
  have hd := popFault_docs s
  have hf := popFault_faults s
  rcases hp : popFault s with ⟨f, s0⟩
  rw [hp] at hd hf
  simp only at hd hf ⊢
  rcases f with _ | (msg | msg) <;> cases hfind : s0.docs.find? (fun d => d.Key == key) <;>
    simp [errorsIs, logPrintf, hd, hf]

theorem Get_found (key : String) (s : World) (hf : (popFault s).1 = none)
    (hk : key ∈ storeKeys s) :
    ∃ file, (DB.Get key s).1 = (file, none) ∧ (DB.Get key s).2.RecordNotFound = false := by
  unfold DB.Get FindOne
  have hd := popFault_docs s
  rcases hp : popFault s with ⟨f, s0⟩
  rw [hp] at hd hf
  simp only at hd hf ⊢
  subst hf
  cases hfind : s0.docs.find? (fun d => d.Key == key) with
  | none => rw [find_key_none, hd] at hfind; exact absurd hk hfind
  | some d => exact ⟨d.File, rfl, rfl⟩

theorem ServeImageGet_eq (r : Request) (s : World) :
    ServeImageGet r s = DB.Get (pathBase r.URL)
      (logPrintf "A key for database search has been retrieved from the path: %s" s) := rfl

theorem ServeImageGet_state (r : Request) (s : World) :
    (ServeImageGet r s).2.docs = s.docs ∧ (ServeImageGet r s).2.faults = s.faults.tail :=
  Get_state _ _

theorem Interleaved_first (h : Web) (wA : ResponseWriter) (rA : Request)
    (wB : ResponseWriter) (rB : Request) (s : World) :
    (ServeImageInterleaved h wA rA wB rB s).1.1 =
      (ServeImageRespond h wA (ServeImageGet rA s).1
        (ServeImageGet rB (ServeImageGet rA s).2).2).1 := rfl

/-- C5, where the code departs from it: `ServeImage` tells the two kinds of failure apart
by the process-wide `db.RecordNotFound`, which the `Get` of another request overwrites.
When the `Get` of a second request runs between the return of the first request's `Get`
and its test of the flag: a first request for a key no document has, next to a second one
for a stored key, is answered with 500 and `cannot get file: mongo: no documents in
result`; and a first request whose query failed, next to a second one for a key no
document has, is answered with 404 and the error page. -/
theorem ServeImage_flag_overwritten_by_concurrent_Get (h : Web) (wA : ResponseWriter)
    (rA : Request) (wB : ResponseWriter) (rB : Request) (s : World)
    (hwA : wA.status = none) :
    (s.faults = [] → pathBase rA.URL ∉ storeKeys s → pathBase rB.URL ∈ storeKeys s →
      (ServeImageInterleaved h wA rA wB rB s).1.1.status = some 500 ∧
      (ServeImageInterleaved h wA rA wB rB s).1.1.body =
        wA.body ++ bytesOf ("cannot get file: " ++ Error.ErrNoDocuments.Error ++ "\n")) ∧
    (∀ msg, s.faults = [some (.driver msg)] → pathBase rB.URL ∉ storeKeys s →
      (ServeImageInterleaved h wA rA wB rB s).1.1.status = some 404 ∧
      ∃ extra, (ServeImageInterleaved h wA rA wB rB s).1.1.body =
        wA.body ++ (h.templError.render notFoundPage).1 ++ extra) := by
  have hpopA := popFault_logPrintf
    "A key for database search has been retrieved from the path: %s" s
  obtain ⟨hdocs1, hfaults1⟩ := ServeImageGet_state rA s
  have hpopB := popFault_logPrintf
    "A key for database search has been retrieved from the path: %s" (ServeImageGet rA s).2
  constructor
  · intro hf hkA hkB
    have hgetA : ServeImageGet rA s = _ := Get_not_found (pathBase rA.URL)
      (logPrintf "A key for database search has been retrieved from the path: %s" s)
      (by rw [hpopA, popFault_fst, hf]; intro msg hc; cases hc) hkA
    have hresA : (ServeImageGet rA s).1 = ([], some .ErrNoDocuments) := by rw [hgetA]
    obtain ⟨file, _, hflag⟩ := Get_found (pathBase rB.URL)
      (logPrintf "A key for database search has been retrieved from the path: %s"
        (ServeImageGet rA s).2)
      (by rw [hpopB, popFault_fst, hfaults1, hf]; rfl)
      (by show pathBase rB.URL ∈ List.map imageData.Key (ServeImageGet rA s).2.docs
          rw [hdocs1]; exact hkB)
    rw [Interleaved_first, hresA]
    exact Respond_other_failure h wA _ _ _ hwA hflag
  · intro msg hf hkB
    have hgetA : ServeImageGet rA s = _ := Get_driver_fault (pathBase rA.URL)
      (logPrintf "A key for database search has been retrieved from the path: %s" s) msg
      (by rw [hpopA, popFault_fst, hf]; rfl)
    have hresA : (ServeImageGet rA s).1 =
        ([], some (.wrapf "The file was not extracted from the database" (.fault msg))) := by
      rw [hgetA]
    have hgetB : ServeImageGet rB (ServeImageGet rA s).2 = _ := Get_not_found (pathBase rB.URL)
      (logPrintf "A key for database search has been retrieved from the path: %s"
        (ServeImageGet rA s).2)
      (by rw [hpopB, popFault_fst, hfaults1, hf]; intro m hc; cases hc)
      (by show pathBase rB.URL ∉ List.map imageData.Key (ServeImageGet rA s).2.docs
          rw [hdocs1]; exact hkB)
    have hflag : (ServeImageGet rB (ServeImageGet rA s).2).2.RecordNotFound = true := by
      rw [hgetB]; rfl
    rw [Interleaved_first, hresA]
    obtain ⟨hst, extra, hbody, _⟩ := Respond_not_found h wA _ [] _ hwA hflag
    exact ⟨hst, extra, hbody⟩

theorem ServeImage_flag_overwritten_by_concurrent_Get_witness :
    freshWriter.status = none ∧
    (ServeImage demoWeb freshWriter demoGet demoWorld).1.status = some 404 ∧
    (ServeImageInterleaved demoWeb freshWriter demoGet freshWriter
      { demoGet with URL := "/images/012345" } demoWorld).1.1.status = some 500 ∧
    (ServeImageInterleaved demoWeb freshWriter demoGet freshWriter
      { demoGet with URL := "/images/012345" } demoWorld).1.1.body =
        bytesOf "cannot get file: mongo: no documents in result\n" ∧
    (ServeImageInterleaved demoWeb freshWriter { demoGet with URL := "/images/012345" }
      freshWriter demoGet
      { demoWorld with faults := [some (.driver "timeout")] }).1.1.status = some 404 :=
  have h1 := ServeImage_flag_overwritten_by_concurrent_Get demoWeb freshWriter demoGet
    freshWriter { demoGet with URL := "/images/012345" } demoWorld rfl
  have h2 := ServeImage_flag_overwritten_by_concurrent_Get demoWeb freshWriter
    { demoGet with URL := "/images/012345" } freshWriter demoGet
    { demoWorld with faults := [some (.driver "timeout")] } rfl
  ⟨rfl, by decide, (h1.1 rfl (by decide) (by decide)).1, (h1.1 rfl (by decide) (by decide)).2,
    (h2.2 "timeout" rfl (by decide)).1⟩

theorem write_eq_of_no_write_error (h : Web) (w : ResponseWriter) (data : Bytes)
    (errText : String) (errStatus : Nat) (s : World) (hok : (w.nextWrite data).2 = none) :
    write h w data errText errStatus s =
      if (w.nextWrite data).1 ≠ (data.length : Int) then
        (some (.errorf "Partial write to the client"), (w.Write data).2,
          logPrintf "%d byte expected, was received %d" s)
      else (none, (w.Write data).2, s) := by
  unfold write ResponseWriter.Write
  rcases hn : w.nextWrite data with ⟨bw, err⟩
  rw [hn] at hok
  simp only at hok
  subst hok
  rfl

/-- C8: when the transport reports no error for the write of `data`, `write` returns nil
exactly when the reported count equals `len(data)`, for every error text, status and
state; and if `Get` returned `data` and the count differs, `ServeImage` logs the failure
lines and ends there, without the line of its success path. -/
theorem write_nil_iff_full_count (h : Web) (w : ResponseWriter) (r : Request) (s : World)
    (data : Bytes) (hok : (w.nextWrite data).2 = none) :
    (∀ (errText : String) (errStatus : Nat) (s1 : World),
      (write h w data errText errStatus s1).1 = none ↔
        (w.nextWrite data).1 = (data.length : Int)) ∧
    (∀ s2 : World,
      DB.Get (pathBase r.URL)
        (logPrintf "A key for database search has been retrieved from the path: %s" s) =
          ((data, none), s2) →
      (w.nextWrite data).1 ≠ (data.length : Int) →
      (ServeImage h w r s).2.log = s2.log ++
        ["A file was retrieved from the database: %s", "%d byte expected, was received %d",
         "The file was not written to the client socket"] ∧
      (ServeImage h w r s).1.status = some (w.status.getD 200)) := by
  constructor
  · intro errText errStatus s1
    rw [write_eq_of_no_write_error h w data errText errStatus s1 hok]
    by_cases hc : (w.nextWrite data).1 = (data.length : Int) <;> simp [hc]
  · intro s2 hget hne
    have hget1 : ServeImageGet r s = ((data, none), s2) := hget
    rw [ServeImage_eq, hget1]
    unfold ServeImageRespond
    dsimp only
    rw [write_eq_of_no_write_error h w data _ _ _ hok]
    simp [hne, logPrintf, ResponseWriter.Write]

theorem write_nil_iff_full_count_witness :
    ({ freshWriter with script := [(1, none)] }.nextWrite [1, 2]).2 = none ∧
    ((write demoWeb { freshWriter with script := [(1, none)] } [1, 2] "cannot write file" 500
        demoWorld).1 = none ↔ (1 : Int) = 2) ∧
    (ServeImage demoWeb { freshWriter with script := [(1, none)] }
        { demoGet with URL := "/images/012345" } demoWorld).2.log =
      ["A key for database search has been retrieved from the path: %s",
       "A file was retrieved from the database: %s", "%d byte expected, was received %d",
       "The file was not written to the client socket"] :=
  have h := write_nil_iff_full_count demoWeb { freshWriter with script := [(1, none)] }
    { demoGet with URL := "/images/012345" } demoWorld [1, 2] rfl
  ⟨rfl, h.1 "cannot write file" 500 demoWorld,
    (h.2 (logPrintf "A key for database search has been retrieved from the path: %s" demoWorld)
      (by decide) (by decide)).1⟩

/-! ## Upload handler -/

theorem logPrintf_docs (format : String) (s : World) : (logPrintf format s).docs = s.docs := rfl

theorem setCalls_logPrintf (format : String) (s : World) :
    setCalls (logPrintf format s) = setCalls s + (if isSetLine format then 1 else 0) := by
  simp [setCalls, logPrintf, List.countP_append, List.countP_cons]

theorem popFault_setCalls (s : World) : setCalls (popFault s).2 = setCalls s := by
  obtain ⟨docs, rnf, faults, draws, log⟩ := s
  cases faults <;> rfl

theorem IsExist_setCalls (key : String) (s : World) :
    setCalls (DB.IsExist key s).2 = setCalls s := by
  unfold DB.IsExist FindOne
  have hd := popFault_setCalls s
  rcases hp : popFault s with ⟨f, s0⟩
  rw [hp] at hd
  simp only at hd ⊢
  rcases f with _ | (msg | msg) <;> cases hf : s0.docs.find? (fun d => d.Key == key) <;>
    simp [hf, errorsIs, setCalls_logPrintf, hd, isSetLine]

theorem nextCandidate_setCalls (s s1 : World) (key : String) (res : Bool × Option Error)
    (h : nextCandidate s = some (key, res, s1)) : setCalls s1 = setCalls s := by
  obtain ⟨rest, _, h2⟩ := nextCandidate_some s s1 key res h
  have := IsExist_setCalls key { s with draws := rest }
  rw [h2] at this
  exact this

theorem createKey_docs_setCalls : ∀ (fuel : Nat) (str : String) (s : World)
    (res : String × Option Error) (s1 : World), createKey fuel str s = some (res, s1) →
    s1.docs = s.docs ∧ setCalls s1 = setCalls s := by
  intro fuel
  induction fuel with
  | zero => intro str s res s1 h; simp [createKey] at h
  | succ n ih =>
    intro str s res s1 h
    unfold createKey at h
    cases hn : nextCandidate s with
    | none => simp [hn] at h
    | some p =>
      obtain ⟨k, ⟨isFound, err⟩, s2⟩ := p
      have hdocs := nextCandidate_docs s s2 k _ hn
      have hset := nextCandidate_setCalls s s2 k _ hn
      cases err with
      | some e =>
        simp [hn] at h
        rw [← h.2]; exact ⟨hdocs, hset⟩
      | none =>
        cases isFound with
        | false =>
          simp [hn] at h
          rw [← h.2]; exact ⟨hdocs, hset⟩
        | true =>
          simp [hn] at h
          obtain ⟨h1, h2⟩ := ih str s2 res s1 h
          exact ⟨h1.trans hdocs, h2.trans hset⟩

theorem Set_failure (filename key : String) (file : Bytes) (s s1 : World) (err : Error)
    (h : DB.Set filename key file s = (some err, s1)) :
    s1.docs = s.docs ∧ setCalls s1 = setCalls s + 1 := by
  unfold DB.Set at h
  have hd := popFault_docs s
  have hc := popFault_setCalls s
  rcases hp : popFault s with ⟨f, s0⟩
  rw [hp] at hd hc h
  simp only at hd hc
  have hres : s1 = logPrintf "The image %s has not been added to the database: %v" s0 := by
    rcases f with _ | (msg | msg) <;> simp only at h
    · split at h <;> simp only [Prod.mk.injEq] at h
      · exact h.2.symm
      · exact absurd h.1 (by simp)
    · simp only [Prod.mk.injEq] at h; exact h.2.symm
    · split at h <;> simp only [Prod.mk.injEq] at h
      · exact h.2.symm
      · exact absurd h.1 (by simp)
  rw [hres]
  exact ⟨by rw [logPrintf_docs, hd], by rw [setCalls_logPrintf, hc]; rfl⟩

theorem Set_success (filename key : String) (file : Bytes) (s s1 : World)
    (h : DB.Set filename key file s = (none, s1)) :
    s1.docs = s.docs ++ [{ Filename := filename, Key := key, File := file }] ∧
    setCalls s1 = setCalls s + 1 ∧
    bsonSize { Filename := filename, Key := key, File := file } ≤ maxBsonObjectSize := by
  unfold DB.Set at h
  have hd := popFault_docs s
  have hc := popFault_setCalls s
  rcases hp : popFault s with ⟨f, s0⟩
  rw [hp] at hd hc h
  simp only at hd hc
  have hres : bsonSize { Filename := filename, Key := key, File := file } ≤ maxBsonObjectSize ∧
      s1 = logPrintf "A new document has been added to the database: %v"
        { s0 with docs := s0.docs ++ [{ Filename := filename, Key := key, File := file }] } := by
    rcases f with _ | (msg | msg) <;> simp only at h
    · split at h <;> simp only [Prod.mk.injEq] at h
      · exact absurd h.1 (by simp)
      · exact ⟨by omega, h.2.symm⟩
    · simp only [Prod.mk.injEq] at h; exact absurd h.1 (by simp)
    · split at h <;> simp only [Prod.mk.injEq] at h
      · exact absurd h.1 (by simp)
      · exact ⟨by omega, h.2.symm⟩
  rw [hres.2]
  exact ⟨by rw [logPrintf_docs, hd], by rw [setCalls_logPrintf]; exact congrArg (· + 1) hc,
    hres.1⟩

theorem Set_too_large (filename key : String) (file : Bytes) (s : World)
    (hbig : maxBsonObjectSize < bsonSize { Filename := filename, Key := key, File := file }) :
    ∃ err s1, DB.Set filename key file s = (some err, s1) := by
  unfold DB.Set
  rcases hp : popFault s with ⟨f, s0⟩
  rcases f with _ | (msg | msg) <;> simp only [hbig, if_true] <;> exact ⟨_, _, rfl⟩

theorem Upload_not_post (fuel : Nat) (h : Web) (w : ResponseWriter) (r : Request) (s : World)
    (hm : r.Method ≠ MethodPost) :
    Upload fuel h w r s =
      some (httpError w "Method not allowed" StatusMethodNotAllowed,
        logPrintf "Method %v not allowed" s) := by
  unfold Upload
  rw [if_pos (by simpa using hm)]

theorem Upload_parse_error (fuel : Nat) (h : Web) (w : ResponseWriter) (r : Request)
    (s : World) (err : Error) (r1 : Request) (hm : r.Method = MethodPost)
    (hp : ParseMultipartForm (MaxBytesReader r maxUploadSize) maxUploadSize = (some err, r1)) :
    Upload fuel h w r s =
      some (httpError w ("cannot parse form: " ++ err.Error) StatusBadRequest,
        logPrintf "cannot parse form: %v"
          (logPrintf "Received a POST request from a client" s)) := by
  unfold Upload
  rw [if_neg (by simp [hm])]
  dsimp only
  rw [hp]

theorem Upload_no_file (fuel : Nat) (h : Web) (w : ResponseWriter) (r : Request)
    (s : World) (err : Error) (r1 : Request) (hm : r.Method = MethodPost)
    (hp : ParseMultipartForm (MaxBytesReader r maxUploadSize) maxUploadSize = (none, r1))
    (hff : FormFile r1 keyForm = .error err) :
    Upload fuel h w r s =
      some (httpError w ("cannot get file from form: " ++ err.Error) StatusBadRequest,
        logPrintf "cannot get file from form: %v"
          (logPrintf "Processed no more than %d bytes of the request body"
            (logPrintf "Received a POST request from a client" s))) := by
  unfold Upload
  rw [if_neg (by simp [hm])]
  dsimp only
  rw [hp]
  dsimp only
  rw [hff]

theorem Upload_copy_error (fuel : Nat) (h : Web) (w : ResponseWriter) (r : Request)
    (s : World) (err : Error) (r1 : Request) (file : Part) (fileheader : FileHeader)
    (buf : Bytes) (hm : r.Method = MethodPost)
    (hp : ParseMultipartForm (MaxBytesReader r maxUploadSize) maxUploadSize = (none, r1))
    (hff : FormFile r1 keyForm = .ok (file, fileheader))
    (hcopy : ioCopy file = (buf, some err)) :
    Upload fuel h w r s =
      some (httpError w ("cannot copy images to file on buf: " ++ err.Error)
          StatusInternalServerError,
        logPrintf "cannot copy images to file on buf: %v"
          (logPrintf "Processed no more than %d bytes of the request body"
            (logPrintf "Received a POST request from a client" s))) := by
  unfold Upload
  rw [if_neg (by simp [hm])]
  dsimp only
  rw [hp]
  dsimp only
  rw [hff]
  dsimp only
  rw [hcopy]

theorem Upload_after_copy (fuel : Nat) (h : Web) (w : ResponseWriter) (r : Request)
    (s : World) (r1 : Request) (file : Part) (fileheader : FileHeader)
    (buf : Bytes) (hm : r.Method = MethodPost)
    (hp : ParseMultipartForm (MaxBytesReader r maxUploadSize) maxUploadSize = (none, r1))
    (hff : FormFile r1 keyForm = .ok (file, fileheader))
    (hcopy : ioCopy file = (buf, none)) :
    Upload fuel h w r s =
      match createKey fuel fileheader.Filename (beforeCreateKey s) with
      | none => none
      | some ((_, some err), s4) =>
        some (httpError w ("cannot get a key to write to the database: " ++ err.Error)
            StatusBadRequest,
          logPrintf "cannot get a key to write to the database: %v" s4)
      | some ((key, none), s4) =>
        match DB.Set fileheader.Filename key buf (beforeSet s4) with
        | (some err, s6) =>
          some (httpError w ("The image has not been added to the database: " ++ err.Error)
            StatusInternalServerError, s6)
        | (none, s6) =>
          match h.templLink.Execute w (.link (userLink r1 key)) with
          | (some err, w1) =>
            some (httpError w1 ("The template was not recorded: " ++ err.Error)
              StatusInternalServerError,
              logPrintf "The template was not recorded"
                (logPrintf "A link %q for the user has been generated"
                  (logPrintf "The file is written to the database" s6)))
          | (none, w1) =>
            some (w1, logPrintf "A link %q has been sent to the client"
              (logPrintf "A link %q for the user has been generated"
                (logPrintf "The file is written to the database" s6))) := by
  unfold Upload
  rw [if_neg (by simp [hm])]
  dsimp only
  rw [hp]
  dsimp only
  rw [hff]
  dsimp only
  rw [hcopy]
  rfl

theorem httpError_body (w : ResponseWriter) (msg : String) (code : Nat) :
    (httpError w msg code).body = w.body ++ bytesOf (msg ++ "\n") := by
  unfold httpError ResponseWriter.WriteHeader ResponseWriter.Write
  cases w.status <;> rfl

theorem ParseMultipartForm_Header_any (r : Request) (maxMemory : Nat) :
    (ParseMultipartForm r maxMemory).2.Header = r.Header := by
  unfold ParseMultipartForm
  dsimp only
  cases r.MultipartForm with
  | some f => rfl
  | none =>
    dsimp only
    cases r.Body with
    | malformed raw err => rfl
    | formData boundary parts epilogue =>
      dsimp only
      cases r.limit with
      | none => rfl
      | some n =>
        dsimp only
        split <;> rfl

theorem ParseMultipartForm_Header (r : Request) (maxMemory : Nat) (e : Option Error)
    (r1 : Request) (hp : ParseMultipartForm (MaxBytesReader r maxUploadSize) maxMemory = (e, r1)) :
    r1.Header = r.Header := by
  have h := ParseMultipartForm_Header_any (MaxBytesReader r maxUploadSize) maxMemory
  rw [hp] at h
  exact h

theorem userLink_congr (r1 r : Request) (key : String) (hh : r1.Header = r.Header) :
    userLink r1 key = userLink r key := by
  unfold userLink
  rw [hh]

theorem Upload_docs_cases (fuel : Nat) (h : Web) (w : ResponseWriter) (r : Request)
    (s : World) (w1 : ResponseWriter) (s1 : World)
    (hrun : Upload fuel h w r s = some (w1, s1)) :
    (s1.docs = s.docs ∧ setCalls s1 ≤ setCalls s + 1) ∨
    ∃ (file : Part) (fileheader : FileHeader) (key : String) (s4 : World),
      createKey fuel fileheader.Filename (beforeCreateKey s) = some ((key, none), s4) ∧
      s1.docs = s.docs ++
        [{ Filename := fileheader.Filename, Key := key, File := file.content }] ∧
      setCalls s1 = setCalls s + 1 ∧
      ∃ extra, w1.body = w.body ++ (h.templLink.render (.link (userLink r key))).1 ++ extra := by
  by_cases hm : r.Method = MethodPost
  · rcases hp : ParseMultipartForm (MaxBytesReader r maxUploadSize) maxUploadSize with ⟨e, r1⟩
    cases e with
    | some err =>
      rw [Upload_parse_error fuel h w r s err r1 hm hp] at hrun
      simp only [Option.some.injEq, Prod.mk.injEq] at hrun
      left; rw [← hrun.2]
      simp [logPrintf_docs, setCalls_logPrintf, isSetLine]
    | none =>
      cases hff : FormFile r1 keyForm with
      | error err =>
        rw [Upload_no_file fuel h w r s err r1 hm hp hff] at hrun
        simp only [Option.some.injEq, Prod.mk.injEq] at hrun
        left; rw [← hrun.2]
        simp [logPrintf_docs, setCalls_logPrintf, isSetLine]
      | ok p =>
        obtain ⟨file, fileheader⟩ := p
        rcases hcopy : ioCopy file with ⟨buf, e⟩
        cases e with
        | some err =>
          rw [Upload_copy_error fuel h w r s err r1 file fileheader buf hm hp hff hcopy] at hrun
          simp only [Option.some.injEq, Prod.mk.injEq] at hrun
          left; rw [← hrun.2]
          simp [logPrintf_docs, setCalls_logPrintf, isSetLine]
        | none =>
          have hbuf : buf = file.content := by
            unfold ioCopy at hcopy
            cases hrf : file.readFault <;> simp [hrf] at hcopy
            exact hcopy.symm
          rw [Upload_after_copy fuel h w r s r1 file fileheader buf hm hp hff hcopy] at hrun
          have hb : setCalls (beforeCreateKey s) = setCalls s := by
            simp [beforeCreateKey, setCalls_logPrintf, isSetLine]
          have hbd : (beforeCreateKey s).docs = s.docs := rfl
          cases hck : createKey fuel fileheader.Filename (beforeCreateKey s) with
          | none => simp [hck] at hrun
          | some q =>
            obtain ⟨⟨key, e⟩, s4⟩ := q
            obtain ⟨hd4, hc4⟩ := createKey_docs_setCalls _ _ _ _ _ hck
            rw [hck] at hrun
            cases e with
            | some err =>
              simp only [Option.some.injEq, Prod.mk.injEq] at hrun
              left; rw [← hrun.2]
              simp [logPrintf_docs, setCalls_logPrintf, isSetLine, hd4, hc4, hb, hbd]
            | none =>
              dsimp only at hrun
              have hbs : setCalls (beforeSet s4) = setCalls s4 := by
                simp [beforeSet, setCalls_logPrintf, isSetLine]
              rcases hset : DB.Set fileheader.Filename key buf (beforeSet s4) with ⟨e, s6⟩
              rw [hset] at hrun
              cases e with
              | some err =>
                obtain ⟨hd6, hc6⟩ := Set_failure _ _ _ _ _ _ hset
                simp only [Option.some.injEq, Prod.mk.injEq] at hrun
                left; rw [← hrun.2]
                refine ⟨?_, ?_⟩
                · rw [hd6]; exact hd4.trans hbd
                · rw [hc6, hbs, hc4, hb]
              | none =>
                obtain ⟨hd6, hc6, _⟩ := Set_success _ _ _ _ _ hset
                right
                refine ⟨file, fileheader, key, s4, hck, ?_, ?_, ?_⟩
                · dsimp only at hrun
                  rcases hex : h.templLink.Execute w (.link (userLink r1 key)) with ⟨e, w2⟩
                  rw [hex] at hrun
                  cases e <;> simp only [Option.some.injEq, Prod.mk.injEq] at hrun <;>
                    rw [← hrun.2] <;> simp only [logPrintf_docs] <;>
                    rw [hd6, hbuf] <;> exact congrArg (· ++ _) (hd4.trans hbd)
                · dsimp only at hrun
                  rcases hex : h.templLink.Execute w (.link (userLink r1 key)) with ⟨e, w2⟩
                  rw [hex] at hrun
                  cases e <;> simp only [Option.some.injEq, Prod.mk.injEq] at hrun <;>
                    rw [← hrun.2] <;>
                    simp [setCalls_logPrintf, isSetLine, hc6, hbs, hc4, hb]
                · dsimp only at hrun
                  have hlink : userLink r1 key = userLink r key :=
                    userLink_congr r1 r key (ParseMultipartForm_Header _ _ _ _ hp)
                  have hex := Execute_body h.templLink w (.link (userLink r1 key))
                  rcases hx : h.templLink.Execute w (.link (userLink r1 key)) with ⟨e, w2⟩
                  rw [hx] at hrun hex
                  rw [hlink] at hex
                  cases e <;> simp only [Option.some.injEq, Prod.mk.injEq] at hrun <;>
                    rw [← hrun.1]
                  · exact ⟨[], by simpa using hex⟩
                  · exact ⟨_, by rw [httpError_body, hex]⟩
  · rw [Upload_not_post fuel h w r s hm] at hrun
    simp only [Option.some.injEq, Prod.mk.injEq] at hrun
    left; rw [← hrun.2]
    simp [logPrintf_docs, setCalls_logPrintf, isSetLine]

/-- C4: in the sequential model (`IsExist` finds a key exactly when a document of the
store has it, `Set` appends one document), a store whose documents have pairwise distinct
keys still has pairwise distinct keys after any `Upload` that returns, whatever its
outcome. -/
theorem Upload_preserves_distinct_keys (fuel : Nat) (h : Web) (w : ResponseWriter)
    (r : Request) (s : World) (w1 : ResponseWriter) (s1 : World)
    (hrun : Upload fuel h w r s = some (w1, s1)) (hinv : (storeKeys s).Nodup) :
    (storeKeys s1).Nodup := by
  rcases Upload_docs_cases fuel h w r s w1 s1 hrun with
    ⟨hd, _⟩ | ⟨file, fh, key, s4, hck, hd, _⟩
  · unfold storeKeys at *; rw [hd]; exact hinv
  · obtain ⟨s0, rest, h0, _, hx⟩ := createKey_sound _ _ _ _ _ hck
    have habs : key ∉ storeKeys s := by
      have := IsExist_false_absent key _ _ hx
      simpa [storeKeys, h0, beforeCreateKey, logPrintf] using this
    unfold storeKeys at *
    rw [hd, List.map_append, List.nodup_append]
    refine ⟨hinv, by simp, ?_⟩
    intro a ha hb
    simp only [List.map_cons, List.map_nil, List.mem_singleton] at hb
    subst hb
    exact habs ha

set_option maxRecDepth 100000 in
theorem Upload_preserves_distinct_keys_witness :
    (storeKeys demoWorld).Nodup ∧
    ∃ w1 s1, Upload 2 demoWeb freshWriter demoUpload demoWorld = some (w1, s1) ∧
      storeKeys s1 = ["012345", "ABCDEF"] ∧ (storeKeys s1).Nodup :=
  ⟨by decide, _, _, rfl, by decide,
    Upload_preserves_distinct_keys 2 demoWeb freshWriter demoUpload demoWorld _ _ rfl
      (by decide)⟩

/-- C6: on a response nothing was written to yet, the first failing step of `Upload` fixes
the status and whether `Set` runs. A method other than POST gives 405; else a multipart
parse failure gives 400; else a missing `image` file gives 400; else (the file copied) a
key allocation failure gives 400; on these four paths the store is unchanged and `Set` is
not called. Else a `Set` failure gives 500, with `Set` called once and nothing stored. -/
theorem Upload_status_by_first_failing_step (fuel : Nat) (h : Web) (w : ResponseWriter)
    (r : Request) (s : World) (hw : w.status = none) :
    (r.Method ≠ MethodPost →
      ∃ w1 s1, Upload fuel h w r s = some (w1, s1) ∧ w1.status = some 405 ∧
        s1.docs = s.docs ∧ setCalls s1 = setCalls s) ∧
    (r.Method = MethodPost →
      (∀ err r1,
        ParseMultipartForm (MaxBytesReader r maxUploadSize) maxUploadSize = (some err, r1) →
        ∃ w1 s1, Upload fuel h w r s = some (w1, s1) ∧ w1.status = some 400 ∧
          s1.docs = s.docs ∧ setCalls s1 = setCalls s) ∧
      (∀ r1,
        ParseMultipartForm (MaxBytesReader r maxUploadSize) maxUploadSize = (none, r1) →
        (∀ err, FormFile r1 keyForm = .error err →
          ∃ w1 s1, Upload fuel h w r s = some (w1, s1) ∧ w1.status = some 400 ∧
            s1.docs = s.docs ∧ setCalls s1 = setCalls s) ∧
        (∀ file fileheader buf, FormFile r1 keyForm = .ok (file, fileheader) →
          ioCopy file = (buf, none) →
          (∀ key err s4,
            createKey fuel fileheader.Filename (beforeCreateKey s) =
              some ((key, some err), s4) →
            ∃ w1 s1, Upload fuel h w r s = some (w1, s1) ∧ w1.status = some 400 ∧
              s1.docs = s.docs ∧ setCalls s1 = setCalls s) ∧
          (∀ key s4,
            createKey fuel fileheader.Filename (beforeCreateKey s) = some ((key, none), s4) →
            ∀ err s6, DB.Set fileheader.Filename key buf (beforeSet s4) = (some err, s6) →
            ∃ w1 s1, Upload fuel h w r s = some (w1, s1) ∧ w1.status = some 500 ∧
              s1.docs = s.docs ∧ setCalls s1 = setCalls s + 1)))) := by
  have hb : setCalls (beforeCreateKey s) = setCalls s := by
    simp [beforeCreateKey, setCalls_logPrintf, isSetLine]
  have hbd : (beforeCreateKey s).docs = s.docs := rfl
  refine ⟨fun hm => ?_, fun hm => ⟨fun err r1 hp => ?_, fun r1 hp => ⟨fun err hff => ?_,
    fun file fileheader buf hff hcopy => ⟨fun key err s4 hck => ?_,
      fun key s4 hck err s6 hset => ?_⟩⟩⟩⟩
  · exact ⟨_, _, Upload_not_post fuel h w r s hm, (httpError_fresh w _ _ hw).1, rfl,
      by simp [setCalls_logPrintf, isSetLine]⟩
  · exact ⟨_, _, Upload_parse_error fuel h w r s err r1 hm hp, (httpError_fresh w _ _ hw).1,
      rfl, by simp [setCalls_logPrintf, isSetLine]⟩
  · exact ⟨_, _, Upload_no_file fuel h w r s err r1 hm hp hff, (httpError_fresh w _ _ hw).1,
      rfl, by simp [setCalls_logPrintf, isSetLine]⟩
  · obtain ⟨hd4, hc4⟩ := createKey_docs_setCalls _ _ _ _ _ hck
    have hU : Upload fuel h w r s =
        some (httpError w ("cannot get a key to write to the database: " ++ err.Error)
            StatusBadRequest,
          logPrintf "cannot get a key to write to the database: %v" s4) := by
      rw [Upload_after_copy fuel h w r s r1 file fileheader buf hm hp hff hcopy, hck]
    refine ⟨_, _, hU, (httpError_fresh w _ StatusBadRequest hw).1, ?_, ?_⟩
    · rw [logPrintf_docs, hd4, hbd]
    · simp [setCalls_logPrintf, isSetLine, hc4, hb]
  · obtain ⟨hd4, hc4⟩ := createKey_docs_setCalls _ _ _ _ _ hck
    obtain ⟨hd6, hc6⟩ := Set_failure _ _ _ _ _ _ hset
    have hbs : setCalls (beforeSet s4) = setCalls s4 := by
      simp [beforeSet, setCalls_logPrintf, isSetLine]
    have hU : Upload fuel h w r s =
        some (httpError w ("The image has not been added to the database: " ++ err.Error)
          StatusInternalServerError, s6) := by
      rw [Upload_after_copy fuel h w r s r1 file fileheader buf hm hp hff hcopy, hck]
      dsimp only
      rw [hset]
    refine ⟨_, _, hU, (httpError_fresh w _ StatusInternalServerError hw).1, ?_, ?_⟩
    · rw [hd6]; exact hd4.trans hbd
    · rw [hc6, hbs, hc4, hb]

set_option maxRecDepth 100000 in
theorem Upload_status_by_first_failing_step_witness :
    freshWriter.status = none ∧
    (∃ w1 s1, Upload 2 demoWeb freshWriter demoGet demoWorld = some (w1, s1) ∧
      w1.status = some 405 ∧ s1.docs = demoWorld.docs ∧ setCalls s1 = setCalls demoWorld) ∧
    (∃ w1 s1, Upload 2 demoWeb freshWriter
        { demoUpload with Body := .malformed [1] "no multipart boundary param" } demoWorld =
        some (w1, s1) ∧
      w1.status = some 400 ∧ s1.docs = demoWorld.docs ∧ setCalls s1 = setCalls demoWorld) ∧
    (∃ w1 s1, Upload 2 demoWeb freshWriter
        { demoUpload with Body := .formData "b" [] (some []) } demoWorld = some (w1, s1) ∧
      w1.status = some 400 ∧ s1.docs = demoWorld.docs ∧ setCalls s1 = setCalls demoWorld) ∧
    (∃ w1 s1, Upload 2 demoWeb freshWriter demoUpload
        { demoWorld with faults := [none, some (.driver "timeout")] } = some (w1, s1) ∧
      w1.status = some 400 ∧ s1.docs = demoWorld.docs ∧ setCalls s1 = setCalls demoWorld) ∧
    (∃ w1 s1, Upload 2 demoWeb freshWriter demoUpload
        { demoWorld with faults := [none, none, some (.driver "timeout")] } = some (w1, s1) ∧
      w1.status = some 500 ∧ s1.docs = demoWorld.docs ∧
      setCalls s1 = setCalls demoWorld + 1) :=
  ⟨rfl,
    (Upload_status_by_first_failing_step 2 demoWeb freshWriter demoGet demoWorld rfl).1
      (by decide),
    ((Upload_status_by_first_failing_step 2 demoWeb freshWriter
      { demoUpload with Body := .malformed [1] "no multipart boundary param" } demoWorld
      rfl).2 rfl).1 _ _ rfl,
    (((Upload_status_by_first_failing_step 2 demoWeb freshWriter
      { demoUpload with Body := .formData "b" [] (some []) } demoWorld rfl).2 rfl).2 _ rfl).1 _ rfl,
    ((((Upload_status_by_first_failing_step 2 demoWeb freshWriter demoUpload
      { demoWorld with faults := [none, some (.driver "timeout")] } rfl).2 rfl).2 _ rfl).2
        _ _ _ rfl rfl).1 _ _ _ rfl,
    ((((Upload_status_by_first_failing_step 2 demoWeb freshWriter demoUpload
      { demoWorld with faults := [none, none, some (.driver "timeout")] } rfl).2 rfl).2 _
        rfl).2 _ _ _ rfl rfl).2 _ _ rfl _ _ rfl⟩

set_option maxRecDepth 100000 in
theorem ParseInt_sprintfBinary : ∀ p : Nat, p < 512 →
    ParseInt (sprintfBinary p) 2 64 = ((p : Int), none) := by
  decide

theorem Perm_lt (mode : Nat) : Perm mode < 512 :=
  Nat.and_lt_two_pow mode (n := 9) (by decide)

theorem Perm_and_mask (mode : Nat) : Perm mode &&& 0o077 = mode &&& 0o077 := by
  unfold Perm
  rw [Nat.and_assoc]
  rfl

theorem parseAuthfile_of_group_other_access (jsonUnmarshal : Bytes → Except Error Auth)
    (filename : String) (sys : Sys) (e : FileEntry)
    (hfile : sys.files.lookup filename = some e) (hown : sys.uid = (e.info.Uid : Int))
    (hperm : e.info.Mode &&& 0o077 ≠ 0) :
    parseAuthfile jsonUnmarshal filename sys =
      ((none, none),
        sysLog "Groups and others should not have access rights to the auth file: %v" sys) := by
  have hstat : osStat sys filename = .ok e.info := by
    unfold osStat; rw [hfile]
  have hparse := ParseInt_sprintfBinary (Perm e.info.Mode) (Perm_lt _)
  have hland : Int.land ((Perm e.info.Mode : Nat) : Int) (0b111111 : Int) > 0 := by
    have h1 : Int.land ((Perm e.info.Mode : Nat) : Int) (0b111111 : Int) =
        ((Perm e.info.Mode &&& 0o077 : Nat) : Int) := rfl
    rw [h1, Perm_and_mask]
    exact Int.ofNat_lt.2 (Nat.pos_of_ne_zero hperm)
  unfold parseAuthfile
  rw [hstat]
  dsimp only
  rw [if_neg (by simp [hown]), hparse]
  dsimp only
  rw [if_neg (by simp), if_pos hland]

theorem configParse_of_group_other_access (jsonUnmarshal : Bytes → Except Error Auth)
    (flags : Flags) (sys : Sys) (e : FileEntry)
    (hfile : sys.files.lookup flags.authFile = some e)
    (hown : sys.uid = (e.info.Uid : Int)) (hperm : e.info.Mode &&& 0o077 ≠ 0)
    (hport : 0 ≤ flags.port ∧ flags.port ≤ 65535) (hform : flags.formFile ≠ "") :
    configParse jsonUnmarshal flags sys =
      ((some { port := toString flags.port, imgDir := flags.imagesDir,
               formFile := flags.formFile, URIDb := flags.URIDb, nameDb := flags.nameDb,
               nameCollection := flags.nameCollection, authData := none }, none),
        sysLog "Groups and others should not have access rights to the auth file: %v" sys) := by
  unfold configParse
  rw [parseAuthfile_of_group_other_access jsonUnmarshal flags.authFile sys e hfile hown hperm]
  dsimp only
  rw [if_neg (by omega), if_neg hform]

/-- C11, where the code departs from it: for an auth file owned by the current user whose
mode grants any access to group or others (`mode & 0o077 != 0`), `parseAuthfile` logs the
complaint but returns no credentials and a nil error (`return nil, err` with the nil `err`
of `strconv.ParseInt`); `configParse`, given a valid port and a form file, succeeds with a
nil `authData`; and `main` hands that nil to `db.NewDB`, where `connectToDB` panics. -/
theorem parseAuthfile_nil_error_on_group_other_access
    (jsonUnmarshal : Bytes → Except Error Auth) (flags : Flags) (sys : Sys) (e : FileEntry)
    (hfile : sys.files.lookup flags.authFile = some e)
    (hown : sys.uid = (e.info.Uid : Int)) (hperm : e.info.Mode &&& 0o077 ≠ 0)
    (hport : 0 ≤ flags.port ∧ flags.port ≤ 65535) (hform : flags.formFile ≠ "") :
    (parseAuthfile jsonUnmarshal flags.authFile sys).1 = (none, none) ∧
    (parseAuthfile jsonUnmarshal flags.authFile sys).2.log = sys.log ++
      ["Groups and others should not have access rights to the auth file: %v"] ∧
    (∃ conf, (configParse jsonUnmarshal flags sys).1 = (some conf, none) ∧
      conf.authData = none) ∧
    ∀ connectFault pingFault,
      mainUntilNewDB jsonUnmarshal flags sys connectFault pingFault =
        .panicked "runtime error: invalid memory address or nil pointer dereference" := by
  have hp := parseAuthfile_of_group_other_access jsonUnmarshal flags.authFile sys e hfile
    hown hperm
  have hc := configParse_of_group_other_access jsonUnmarshal flags sys e hfile hown hperm
    hport hform
  refine ⟨by rw [hp], by rw [hp]; rfl, ⟨_, by rw [hc], rfl⟩, fun cf pf => ?_⟩
  unfold mainUntilNewDB
  rw [hc]
  rfl

theorem parseAuthfile_nil_error_on_group_other_access_witness :
    demoSys.files.lookup demoFlags.authFile =
      some { info := { Uid := 1000, Mode := 0o644 }, content := bytesOf "<credentials>",
             readFault := none } ∧
    (0o644 : Nat) &&& 0o077 ≠ 0 ∧
    (parseAuthfile demoUnmarshal "auth.json" demoSys).1 = (none, none) ∧
    mainUntilNewDB demoUnmarshal demoFlags demoSys none none =
      .panicked "runtime error: invalid memory address or nil pointer dereference" :=
  have h := parseAuthfile_nil_error_on_group_other_access demoUnmarshal demoFlags demoSys
    { info := { Uid := 1000, Mode := 0o644 }, content := bytesOf "<credentials>",
      readFault := none }
    (by decide) (by decide) (by decide) (by decide) (by decide)
  ⟨by decide, by decide, h.1, h.2.2.2 none none⟩

end ShareImages
